import Mathlib

/-! Verification of vreme, the aviation weather provider (`pkg/weather`, `pkg/weather/nws`).

A shallow embedding of the Go sources

* `pkg/weather/weather.go`  (the `WeatherProvider` contract and the `WeatherService` facade),
* `pkg/weather/nws/nws.go`  (the NWS provider: `Update`, `GetMETAR`, `GetTAF`, `getURL`,
  `processURL`, `processTAFs`, `processMETARs`, `unmarshalResponse`, `downloadFile`, `ungzip`),
* `pkg/weather/nws/types.go` (the wire records),

followed by the properties proved about them.

Conventions of the embedding.

* A Go `string` / `[]byte` is a list of bytes (`GoString`, `Bytes`).
* A Go value that may be `nil` (`error`, `[]byte`, `map`, `*response`) is an `Option`.
* A Go function with several results is a function into a tuple, so that "value and error"
  are both visible, exactly as the caller sees them.
* A run-time panic is an explicit `Outcome.panic`.
* The network is an oracle `Network`; the requests made so far are threaded as a log, so the
  reply to a request may depend on everything requested before it.
* The standard-library decoders whose input is a raw byte stream (`compress/gzip`,
  `encoding/xml`, the syntax layer of `encoding/json`, `strconv.Quote`) are fields of `StdLib`.
  The parts of the standard library that decide what the provider returns are modelled
  concretely: `net/url` (`Parse`, `String`, `Query`, `Values.Encode`, `QueryEscape`,
  `QueryUnescape`) and the typed decoding step of `encoding/json` for the two record types.
-/

namespace Vreme

/-! ## Go strings, errors, outcomes -/

abbrev Byte := Fin 256

abbrev GoString := List Byte

abbrev Bytes := List Byte

/-- UTF-8 encoding of one character, as Go stores string literals. -/
def utf8 (c : Char) : List Byte :=
  let n := c.toNat
  if n < 0x80 then [Fin.ofNat n]
  else if n < 0x800 then [Fin.ofNat (0xC0 + n / 64), Fin.ofNat (0x80 + n % 64)]
  else if n < 0x10000 then
    [Fin.ofNat (0xE0 + n / 4096), Fin.ofNat (0x80 + n / 64 % 64), Fin.ofNat (0x80 + n % 64)]
  else
    [Fin.ofNat (0xF0 + n / 262144), Fin.ofNat (0x80 + n / 4096 % 64),
     Fin.ofNat (0x80 + n / 64 % 64), Fin.ofNat (0x80 + n % 64)]

/-- A Go string literal. -/
def str (s : String) : GoString := s.toList.flatMap utf8

/-- A Go `error` value: a plain message, or a message context wrapping a cause
(`fmt.Errorf("ctx: %w", cause)`, `*url.Error`). -/
inductive GoError where
  | text (msg : GoString)
  | wrap (ctx : GoString) (cause : GoError)
  deriving DecidableEq, Repr

/-- The method `Error()`: the text of an error. -/
def GoError.Error : GoError → GoString
  | .text msg => msg
  | .wrap ctx cause => ctx ++ cause.Error

/-- The method `Unwrap()`. -/
def GoError.Unwrap : GoError → Option GoError
  | .text _ => none
  | .wrap _ cause => some cause

/-- How a Go call ends: it returns, or it panics. -/
inductive Outcome (α : Type) where
  | ret (v : α)
  | panic (msg : GoString)
  deriving DecidableEq, Repr

/-- `strings.Contains(s, sub)`. -/
def contains (s sub : GoString) : Bool :=
  s.tails.any (fun t => sub.isPrefixOf t)

/-- `strings.Index(s, sub)`, `none` for -1. -/
def index (s sub : GoString) : Option Nat :=
  let i := s.tails.findIdx (fun t => sub.isPrefixOf t)
  if i ≤ s.length then some i else none

/-- `strings.LastIndex(s, sep)` for a one-byte separator, `none` for -1. -/
def lastIndexByte (s : GoString) (sep : Byte) : Option Nat :=
  let r := s.reverse
  let i := r.findIdx (fun c => c == sep)
  if i < r.length then some (s.length - 1 - i) else none

/-- `strings.Cut(s, sep)` for a one-byte separator. -/
def cut (s : GoString) (sep : Byte) : GoString × GoString × Bool :=
  match s.span (fun c => c != sep) with
  | (before, []) => (before, [], false)
  | (before, _ :: after) => (before, after, true)

/-! ## `map[string]string` -/

/-- A Go `map[string]string`: an association list whose keys are kept distinct by `set`. -/
abbrev GoMap := List (GoString × GoString)

/-- The assignment `m[k] = v`: overwrite the entry of `k`, or add one. -/
def GoMap.set : GoMap → GoString → GoString → GoMap
  | [], k, v => [(k, v)]
  | (k0, v0) :: rest, k, v =>
    if k0 = k then (k, v) :: rest else (k0, v0) :: GoMap.set rest k v

/-- The lookup `v, ok := m[k]`. -/
def GoMap.get? : GoMap → GoString → Option GoString
  | [], _ => none
  | (k0, v0) :: rest, k => if k0 = k then some v0 else GoMap.get? rest k

/-- The keys of a map. -/
def GoMap.keys (m : GoMap) : List GoString := m.map Prod.fst

/-- The builtin `len(m)`. -/
def GoMap.len (m : GoMap) : Nat := m.length

/-! ## `net/url`: escaping -/

/-- The escaping modes of `net/url`. -/
inductive encoding where
  | encodePath
  | encodePathSegment
  | encodeHost
  | encodeZone
  | encodeUserPassword
  | encodeQueryComponent
  | encodeFragment
  deriving DecidableEq, Repr

def isLower (c : Byte) : Bool := decide (97 ≤ c.val ∧ c.val ≤ 122)

def isUpper (c : Byte) : Bool := decide (65 ≤ c.val ∧ c.val ≤ 90)

def isDigit (c : Byte) : Bool := decide (48 ≤ c.val ∧ c.val ≤ 57)

/-- The function `ishex`. -/
def ishex (c : Byte) : Bool :=
  isDigit c || decide (97 ≤ c.val ∧ c.val ≤ 102) || decide (65 ≤ c.val ∧ c.val ≤ 70)

/-- The function `unhex`. -/
def unhex (c : Byte) : Nat :=
  if isDigit c then c.val - 48
  else if 97 ≤ c.val ∧ c.val ≤ 102 then c.val - 97 + 10
  else if 65 ≤ c.val ∧ c.val ≤ 70 then c.val - 65 + 10
  else 0

/-- The table `upperhex = "0123456789ABCDEF"`, indexed by a nibble. -/
def upperhex (n : Nat) : Byte := if n < 10 then Fin.ofNat (48 + n) else Fin.ofNat (55 + n)

/-- The bytes `! $ & ' ( ) * + , ; = : [ ] < > "` that a host may carry unescaped. -/
def hostSafe : List Byte := [33, 36, 38, 39, 40, 41, 42, 43, 44, 59, 61, 58, 91, 93, 60, 62, 34]

/-- The unreserved marks `- _ . ~`. -/
def unreservedMark : List Byte := [45, 95, 46, 126]

/-- The reserved bytes `$ & + , / : ; = ? @`. -/
def reserved : List Byte := [36, 38, 43, 44, 47, 58, 59, 61, 63, 64]

/-- The function `shouldEscape(c, mode)`. -/
def shouldEscape (c : Byte) (mode : encoding) : Bool :=
  if isLower c || isUpper c || isDigit c then false
  else if (mode = .encodeHost ∨ mode = .encodeZone) ∧ c ∈ hostSafe then false
  else if c ∈ unreservedMark then false
  else if c ∈ reserved ∧ mode = .encodePath then decide (c = 63)
  else if c ∈ reserved ∧ mode = .encodePathSegment then decide (c ∈ [47, 59, 44, 63])
  else if c ∈ reserved ∧ mode = .encodeUserPassword then decide (c ∈ [64, 47, 63, 58])
  else if c ∈ reserved ∧ mode = .encodeQueryComponent then true
  else if c ∈ reserved ∧ mode = .encodeFragment then false
  else if mode = .encodeFragment ∧ c ∈ [33, 40, 41, 42] then false
  else true

/-- One byte of `escape`: a space becomes `+` in a query component, a byte that must be
escaped becomes `%XX` in upper-case hex, every other byte is kept. -/
def escapeByte (mode : encoding) (c : Byte) : GoString :=
  if c = 32 ∧ mode = .encodeQueryComponent then [43]
  else if shouldEscape c mode then [37, upperhex (c.val / 16), upperhex (c.val % 16)]
  else [c]

/-- The function `escape(s, mode)`. -/
def escape (s : GoString) (mode : encoding) : GoString := s.flatMap (escapeByte mode)

/-- The function `QueryEscape`. -/
def QueryEscape (s : GoString) : GoString := escape s .encodeQueryComponent

/-- The error `EscapeError(s)`; `quote` is `strconv.Quote`. -/
def EscapeError (quote : GoString → GoString) (s : GoString) : GoError :=
  .text (str "invalid URL escape " ++ quote s)

/-- The error `InvalidHostError(s)`. -/
def InvalidHostError (quote : GoString → GoString) (s : GoString) : GoError :=
  .text (str "invalid character " ++ quote s ++ str " in host name")

/-- First loop of `unescape`: every `%` is followed by two hex digits, and the host and
zone modes admit only what a host may carry. Returns the error, if any. -/
def unescapeCheck (quote : GoString → GoString) (mode : encoding) : GoString → Option GoError
  | [] => none
  | c :: rest =>
    if c = 37 then
      match rest with
      | a :: b :: rest2 =>
        if !(ishex a && ishex b) then some (EscapeError quote [c, a, b])
        else if mode = .encodeHost ∧ unhex a < 8 ∧ [c, a, b] ≠ [37, 50, 53] then
          some (EscapeError quote [c, a, b])
        else if mode = .encodeZone ∧ [c, a, b] ≠ [37, 50, 53]
            ∧ (Fin.ofNat (unhex a * 16 + unhex b) : Byte) ≠ 32
            ∧ shouldEscape (Fin.ofNat (unhex a * 16 + unhex b)) .encodeHost then
          some (EscapeError quote [c, a, b])
        else unescapeCheck quote mode rest2
      | _ => some (EscapeError quote (c :: rest))
    else if c = 43 then unescapeCheck quote mode rest
    else if (mode = .encodeHost ∨ mode = .encodeZone) ∧ c.val < 128
        ∧ shouldEscape c .encodeHost then
      some (InvalidHostError quote [c])
    else unescapeCheck quote mode rest

/-- Second loop of `unescape`: `%XX` becomes the byte, `+` becomes a space in a query
component. (A `%` without two bytes after it cannot occur after the first loop.) -/
def unescapeDecode (mode : encoding) : GoString → GoString
  | [] => []
  | c :: rest =>
    if c = 37 then
      match rest with
      | a :: b :: rest2 => Fin.ofNat (unhex a * 16 + unhex b) :: unescapeDecode mode rest2
      | _ => c :: rest
    else if c = 43 then
      (if mode = .encodeQueryComponent then 32 else 43) :: unescapeDecode mode rest
    else c :: unescapeDecode mode rest

/-- The function `unescape(s, mode)`. (Go returns `s` itself when it holds no `%` and no
`+` to decode; the second loop returns the same bytes then.) -/
def unescape (quote : GoString → GoString) (s : GoString) (mode : encoding) :
    Except GoError GoString :=
  match unescapeCheck quote mode s with
  | some err => .error err
  | none => .ok (unescapeDecode mode s)

/-- The function `QueryUnescape`. -/
def QueryUnescape (quote : GoString → GoString) (s : GoString) : Except GoError GoString :=
  unescape quote s .encodeQueryComponent

/-! ## `net/url`: the `URL` type, `Parse` and `String` -/

/-- The type `Userinfo`. -/
structure Userinfo where
  username : GoString
  password : GoString
  passwordSet : Bool
  deriving DecidableEq, Repr

/-- The type `URL`. -/
structure URL where
  Scheme : GoString := []
  Opaque : GoString := []
  User : Option Userinfo := none
  Host : GoString := []
  Path : GoString := []
  RawPath : GoString := []
  OmitHost : Bool := false
  ForceQuery : Bool := false
  RawQuery : GoString := []
  Fragment : GoString := []
  RawFragment : GoString := []
  deriving DecidableEq, Repr

/-- The method `(*Userinfo).String`. -/
def Userinfo.String (u : Userinfo) : GoString :=
  escape u.username .encodeUserPassword ++
    (if u.passwordSet then 58 :: escape u.password .encodeUserPassword else [])

/-- The function `stringContainsCTLByte`. -/
def stringContainsCTLByte (s : GoString) : Bool := s.any (fun b => decide (b.val < 32 ∨ b.val = 127))

/-- The loop of `getScheme`, at index `i` with `rest = rawURL[i:]`. -/
def getSchemeLoop (rawURL : GoString) : Nat → GoString → Except GoError (GoString × GoString)
  | _, [] => .ok ([], rawURL)
  | i, c :: rest =>
    if isLower c || isUpper c then getSchemeLoop rawURL (i + 1) rest
    else if isDigit c || c == 43 || c == 45 || c == 46 then
      if i = 0 then .ok ([], rawURL) else getSchemeLoop rawURL (i + 1) rest
    else if c = 58 then
      if i = 0 then .error (.text (str "missing protocol scheme"))
      else .ok (rawURL.take i, rest)
    else .ok ([], rawURL)

/-- The function `getScheme`: `(scheme, path)` or an error. -/
def getScheme (rawURL : GoString) : Except GoError (GoString × GoString) :=
  getSchemeLoop rawURL 0 rawURL

/-- The function `strings.ToLower` on the bytes of a scheme (letters, digits, `+ - .`). -/
def toLower (s : GoString) : GoString :=
  s.map (fun c => if isUpper c then Fin.ofNat (c.val + 32) else c)

/-- The function `validOptionalPort`. -/
def validOptionalPort (port : GoString) : Bool :=
  match port with
  | [] => true
  | c :: digits => c == 58 && digits.all isDigit

/-- The function `validUserinfo`. -/
def validUserinfo (s : GoString) : Bool :=
  s.all (fun r => isUpper r || isLower r || isDigit r ||
    decide (r ∈ ([45, 46, 95, 58, 126, 33, 36, 38, 39, 40, 41, 42, 43, 44, 59, 61, 37, 64] :
      List Byte)))

/-- The function `parseHost`. -/
def parseHost (quote : GoString → GoString) (host : GoString) : Except GoError GoString :=
  let invalidPort (colonPort : GoString) : GoError :=
    .text (str "invalid port " ++ quote colonPort ++ str " after host")
  if host.head? = some 91 then
    match lastIndexByte host 93 with
    | none => .error (.text (str "missing " ++ [39, 93, 39] ++ str " in host"))
    | some i =>
      let colonPort := host.drop (i + 1)
      if !validOptionalPort colonPort then .error (invalidPort colonPort)
      else
        match index (host.take i) [37, 50, 53] with
        | some zone =>
          match unescape quote (host.take zone) .encodeHost with
          | .error e => .error e
          | .ok host1 =>
            match unescape quote ((host.take i).drop zone) .encodeZone with
            | .error e => .error e
            | .ok host2 =>
              match unescape quote (host.drop i) .encodeHost with
              | .error e => .error e
              | .ok host3 => .ok (host1 ++ host2 ++ host3)
        | none => unescape quote host .encodeHost
  else
    match lastIndexByte host 58 with
    | some i =>
      let colonPort := host.drop i
      if !validOptionalPort colonPort then .error (invalidPort colonPort)
      else unescape quote host .encodeHost
    | none => unescape quote host .encodeHost

/-- The function `parseAuthority`: `(user, host)` or an error. -/
def parseAuthority (quote : GoString → GoString) (authority : GoString) :
    Except GoError (Option Userinfo × GoString) :=
  match lastIndexByte authority 64 with
  | none =>
    match parseHost quote authority with
    | .error e => .error e
    | .ok host => .ok (none, host)
  | some i =>
    match parseHost quote (authority.drop (i + 1)) with
    | .error e => .error e
    | .ok host =>
      let userinfo := authority.take i
      if !validUserinfo userinfo then .error (.text (str "net/url: invalid userinfo"))
      else if !(userinfo.contains 58) then
        match unescape quote userinfo .encodeUserPassword with
        | .error e => .error e
        | .ok name => .ok (some ⟨name, [], false⟩, host)
      else
        let (username, password, _) := cut userinfo 58
        match unescape quote username .encodeUserPassword with
        | .error e => .error e
        | .ok name =>
          match unescape quote password .encodeUserPassword with
          | .error e => .error e
          | .ok pass => .ok (some ⟨name, pass, true⟩, host)

/-- The method `(*URL).setPath`. -/
def URL.setPath (quote : GoString → GoString) (u : URL) (p : GoString) : Except GoError URL :=
  match unescape quote p .encodePath with
  | .error e => .error e
  | .ok path =>
    if p = escape path .encodePath then .ok { u with Path := path, RawPath := [] }
    else .ok { u with Path := path, RawPath := p }

/-- The method `(*URL).setFragment`. -/
def URL.setFragment (quote : GoString → GoString) (u : URL) (f : GoString) :
    Except GoError URL :=
  match unescape quote f .encodeFragment with
  | .error e => .error e
  | .ok frag =>
    if f = escape frag .encodeFragment then .ok { u with Fragment := frag, RawFragment := [] }
    else .ok { u with Fragment := frag, RawFragment := f }

/-- The function `parse(rawURL, viaRequest)`: a URL without its fragment. -/
def parse (quote : GoString → GoString) (rawURL : GoString) (viaRequest : Bool) :
    Except GoError URL :=
  if stringContainsCTLByte rawURL then
    .error (.text (str "net/url: invalid control character in URL"))
  else if rawURL = [] ∧ viaRequest then .error (.text (str "empty url"))
  else if rawURL = [42] then .ok { Path := [42] }
  else
    match getScheme rawURL with
    | .error e => .error e
    | .ok (scheme, rest0) =>
      let url0 : URL := { Scheme := toLower scheme }
      let (url1, rest) : URL × GoString :=
        if rest0.getLast? = some 63 ∧ rest0.count 63 = 1 then
          ({ url0 with ForceQuery := true }, rest0.dropLast)
        else ({ url0 with RawQuery := (cut rest0 63).2.1 }, (cut rest0 63).1)
      if rest.head? ≠ some 47 ∧ url1.Scheme ≠ [] then .ok { url1 with Opaque := rest }
      else if rest.head? ≠ some 47 ∧ viaRequest then
        .error (.text (str "invalid URI for request"))
      else if rest.head? ≠ some 47 ∧ (cut rest 47).1.contains 58 then
        .error (.text (str "first path segment in URL cannot contain colon"))
      else if (url1.Scheme ≠ [] ∨ (!viaRequest ∧ ¬ (str "///").isPrefixOf rest))
          ∧ (str "//").isPrefixOf rest then
        let authority0 := rest.drop 2
        let (authority, rest2) : GoString × GoString :=
          match authority0.indexOf? 47 with
          | some i => (authority0.take i, authority0.drop i)
          | none => (authority0, [])
        match parseAuthority quote authority with
        | .error e => .error e
        | .ok (user, host) => URL.setPath quote { url1 with User := user, Host := host } rest2
      else if url1.Scheme ≠ [] ∧ rest.head? = some 47 then
        URL.setPath quote { url1 with OmitHost := true } rest
      else URL.setPath quote url1 rest

/-- The error `&url.Error{Op, URL, Err}`, whose text is `Op + " " + strconv.Quote(URL) + ": " +
Err.Error()` and which unwraps to `Err`. -/
def urlError (quote : GoString → GoString) (op url : GoString) (err : GoError) : GoError :=
  .wrap (op ++ [32] ++ quote url ++ str ": ") err

/-- The function `url.Parse`. -/
def Parse (quote : GoString → GoString) (rawURL : GoString) : Except GoError URL :=
  let (u, frag, _) := cut rawURL 35
  match parse quote u false with
  | .error err => .error (urlError quote (str "parse") u err)
  | .ok url =>
    if frag = [] then .ok url
    else
      match URL.setFragment quote url frag with
      | .error err => .error (urlError quote (str "parse") rawURL err)
      | .ok url2 => .ok url2

/-- The function `validEncoded`. -/
def validEncoded (s : GoString) (mode : encoding) : Bool :=
  s.all (fun c =>
    if c ∈ ([33, 36, 38, 39, 40, 41, 42, 43, 44, 59, 61, 58, 64] : List Byte) then true
    else if c = 91 ∨ c = 93 then true
    else if c = 37 then true
    else !shouldEscape c mode)

/-- The test `p, err := unescape(raw, mode); err == nil && p == want`. -/
def unescapesTo (quote : GoString → GoString) (raw : GoString) (mode : encoding)
    (want : GoString) : Bool :=
  match unescape quote raw mode with
  | .ok p => decide (p = want)
  | .error _ => false

/-- The method `(*URL).EscapedPath`. -/
def URL.EscapedPath (quote : GoString → GoString) (u : URL) : GoString :=
  if u.RawPath ≠ [] ∧ validEncoded u.RawPath .encodePath
      ∧ unescapesTo quote u.RawPath .encodePath u.Path then u.RawPath
  else if u.Path = [42] then [42]
  else escape u.Path .encodePath

/-- The method `(*URL).EscapedFragment`. -/
def URL.EscapedFragment (quote : GoString → GoString) (u : URL) : GoString :=
  if u.RawFragment ≠ [] ∧ validEncoded u.RawFragment .encodeFragment
      ∧ unescapesTo quote u.RawFragment .encodeFragment u.Fragment then u.RawFragment
  else escape u.Fragment .encodeFragment

/-- What `(*URL).String` writes before the query: scheme, authority (or the rootless
`Opaque` part) and path. -/
def URL.stringHead (quote : GoString → GoString) (u : URL) : GoString :=
  let scheme : GoString := if u.Scheme ≠ [] then u.Scheme ++ [58] else []
  if u.Opaque ≠ [] then scheme ++ u.Opaque
  else
    let authority : GoString :=
      if u.Scheme ≠ [] ∨ u.Host ≠ [] ∨ u.User ≠ none then
        if u.OmitHost ∧ u.Host = [] ∧ u.User = none then []
        else
          (if u.Host ≠ [] ∨ u.Path ≠ [] ∨ u.User ≠ none then str "//" else []) ++
          (match u.User with
            | some ui => ui.String ++ [64]
            | none => []) ++
          (if u.Host ≠ [] then escape u.Host .encodeHost else [])
      else []
    let path := URL.EscapedPath quote u
    let slash : GoString := if path ≠ [] ∧ path.head? ≠ some 47 ∧ u.Host ≠ [] then [47] else []
    let buf := scheme ++ authority ++ slash
    let dot : GoString := if buf = [] ∧ (cut path 47).1.contains 58 then str "./" else []
    buf ++ dot ++ path

/-- The method `(*URL).String`. -/
def URL.String (quote : GoString → GoString) (u : URL) : GoString :=
  URL.stringHead quote u ++
    (if u.ForceQuery ∨ u.RawQuery ≠ [] then 63 :: u.RawQuery else []) ++
    (if u.Fragment ≠ [] then 35 :: URL.EscapedFragment quote u else [])

/-! ## `net/url`: query values -/

/-- The type `url.Values`, a `map[string][]string`: an association list with distinct keys. -/
abbrev Values := List (GoString × List GoString)

/-- The lookup `v[key]` (`nil` when absent). -/
def Values.get : Values → GoString → List GoString
  | [], _ => []
  | (k0, vs0) :: rest, k => if k0 = k then vs0 else Values.get rest k

/-- The assignment `v[key] = vs`. -/
def Values.put : Values → GoString → List GoString → Values
  | [], k, vs => [(k, vs)]
  | (k0, vs0) :: rest, k, vs =>
    if k0 = k then (k, vs) :: rest else (k0, vs0) :: Values.put rest k vs

/-- The method `Values.Set`: `v[key] = []string{value}`. -/
def Values.Set (v : Values) (key value : GoString) : Values := v.put key [value]

/-- One round of the loop of `parseQuery`, on the piece `key` cut off before the next `&`:
`m[key] = append(m[key], value)` or a recorded error. -/
def parseQueryStep (quote : GoString → GoString) (acc : Values × Option GoError)
    (piece : GoString) : Values × Option GoError :=
  if piece.contains 59 then
    (acc.1, some (.text (str "invalid semicolon separator in query")))
  else if piece = [] then acc
  else
    match QueryUnescape quote (cut piece 61).1 with
    | .error err1 => (acc.1, if acc.2 = none then some err1 else acc.2)
    | .ok key =>
      match QueryUnescape quote (cut piece 61).2.1 with
      | .error err1 => (acc.1, if acc.2 = none then some err1 else acc.2)
      | .ok value => (acc.1.put key (acc.1.get key ++ [value]), acc.2)

/-- The function `url.ParseQuery`: the loop cuts the query at every `&`. -/
def ParseQuery (quote : GoString → GoString) (query : GoString) : Values × Option GoError :=
  (query.splitOn 38).foldl (parseQueryStep quote) ([], none)

/-- The method `(*URL).Query`: `v, _ := ParseQuery(u.RawQuery)`. -/
def URL.Query (quote : GoString → GoString) (u : URL) : Values := (ParseQuery quote u.RawQuery).1

/-- Byte-wise order of Go strings, as `slices.Sort` uses it. -/
def strLE (a b : GoString) : Prop := ¬ b < a

instance : DecidableRel strLE := fun a b => inferInstanceAs (Decidable (¬ b < a))

/-- The method `Values.Encode`: keys sorted, each value as `key=value` escaped, joined
by `&`. -/
def Values.Encode (v : Values) : GoString :=
  let keys := (v.map Prod.fst).insertionSort strLE
  let pairs := keys.flatMap (fun k =>
    (v.get k).map (fun value => QueryEscape k ++ [61] ++ QueryEscape value))
  (str "&").intercalate pairs

/-! ## `encoding/json`: decoding into the two API record types -/

/-- A syntactically valid JSON text, with string escapes already decoded. -/
inductive JSON where
  | null
  | bool (b : Bool)
  | number (lit : GoString)
  | string (s : GoString)
  | array (elems : List JSON)
  | object (members : List (GoString × JSON))

/-- The word `encoding/json` uses for the kind of a value in `UnmarshalTypeError.Value`. -/
def JSON.kind : JSON → GoString
  | .null => str "null"
  | .bool _ => str "bool"
  | .number _ => str "number"
  | .string _ => str "string"
  | .array _ => str "array"
  | .object _ => str "object"

/-- The error `*json.UnmarshalTypeError` for a value that does not fit the Go type. -/
def unmarshalTypeError (value goType : GoString) : GoError :=
  .text (str "json: cannot unmarshal " ++ value ++ str " into Go value of type " ++ goType)

/-- The error `*json.UnmarshalTypeError` inside a struct field. -/
def unmarshalFieldError (value struct field goType : GoString) : GoError :=
  .text (str "json: cannot unmarshal " ++ value ++ str " into Go struct field " ++ struct ++
    [46] ++ field ++ str " of type " ++ goType)

/-- ASCII case folding. The three field names `icaoId`, `rawOb`, `rawTAF` hold no letter that
a non-ASCII character folds to, so for them this is the name matching of `encoding/json`. -/
def foldName (s : GoString) : GoString :=
  s.map (fun c => if isLower c then Fin.ofNat (c.val - 32) else c)

/-- A record with two string fields, as `encoding/json` fills it from the members of an
object: a member whose name matches a field sets it from a string, leaves it on `null`,
and records a type error on any other value; other members are skipped. The first error
recorded is kept. -/
def decodeFields (struct name1 name2 : GoString) :
    List (GoString × JSON) → (GoString × GoString) × Option GoError →
      (GoString × GoString) × Option GoError
  | [], acc => acc
  | (key, value) :: rest, ((f1, f2), err) =>
    if key = name1 ∨ (key ≠ name2 ∧ foldName key = foldName name1) then
      match value with
      | .string s => decodeFields struct name1 name2 rest ((s, f2), err)
      | .null => decodeFields struct name1 name2 rest ((f1, f2), err)
      | other =>
        decodeFields struct name1 name2 rest ((f1, f2),
          if err = none then
            some (unmarshalFieldError other.kind struct name1 (str "string"))
          else err)
    else if key = name2 ∨ foldName key = foldName name2 then
      match value with
      | .string s => decodeFields struct name1 name2 rest ((f1, s), err)
      | .null => decodeFields struct name1 name2 rest ((f1, f2), err)
      | other =>
        decodeFields struct name1 name2 rest ((f1, f2),
          if err = none then
            some (unmarshalFieldError other.kind struct name2 (str "string"))
          else err)
    else decodeFields struct name1 name2 rest ((f1, f2), err)

/-- The elements of a JSON array decoded into a slice of two-field records: an object fills
a record, `null` leaves the zero record, any other value leaves the zero record and records
a type error; decoding goes on after an error. -/
def decodeElems (struct goType name1 name2 : GoString) :
    List JSON → Option GoError → List (GoString × GoString) × Option GoError
  | [], err => ([], err)
  | .object members :: rest, err =>
    let r := decodeFields struct name1 name2 members (([], []), err)
    let t := decodeElems struct goType name1 name2 rest r.2
    (r.1 :: t.1, t.2)
  | .null :: rest, err =>
    let t := decodeElems struct goType name1 name2 rest err
    (([], []) :: t.1, t.2)
  | other :: rest, err =>
    let t := decodeElems struct goType name1 name2 rest
      (if err = none then some (unmarshalTypeError other.kind goType) else err)
    (([], []) :: t.1, t.2)

/-- A JSON value decoded into a slice of two-field records that starts empty: an array
gives its elements, `null` gives the nil slice, any other value is a type error and leaves
the slice as it was. Returns the slice and `d.savedError`. -/
def decodeSlice (struct goType name1 name2 : GoString) (v : JSON) :
    List (GoString × GoString) × Option GoError :=
  match v with
  | .array elems => decodeElems struct goType name1 name2 elems none
  | .null => ([], none)
  | other => ([], some (unmarshalTypeError other.kind (str "[]" ++ goType)))

/-! ## `pkg/weather/nws/types.go` -/

structure METAR where
  StationID : GoString
  RawText : GoString
  deriving DecidableEq, Repr

structure TAF where
  StationID : GoString
  RawText : GoString
  deriving DecidableEq, Repr

structure response where
  METARs : List METAR
  TAFs : List TAF
  deriving DecidableEq, Repr

structure dataAPIMETAR where
  StationID : GoString
  Observation : GoString
  deriving DecidableEq, Repr

structure dataAPITAF where
  StationID : GoString
  Forecast : GoString
  deriving DecidableEq, Repr

/-! ## The standard library and the network -/

/-- The standard-library functions whose input is a byte stream.
* `quote` is `strconv.Quote`.
* `gzipReader data` is `gzip.NewReader(bytes.NewReader(data))` followed by `io.ReadAll`: the
  error of `NewReader`, or the bytes read and the error of the read.
* `xmlUnmarshal data` is `xml.Unmarshal(data, &response{})`.
* `jsonSyntax data` is the syntax check of `json.Unmarshal`: a syntax error, or the value. -/
structure StdLib where
  quote : GoString → GoString
  gzipReader : Bytes → Except GoError (Bytes × Option GoError)
  xmlUnmarshal : Bytes → Except GoError response
  jsonSyntax : Bytes → Except GoError JSON

/-- The call `json.Unmarshal(data, &metars)` with `metars := []dataAPIMETAR{}`: the slice
after the call and the error. -/
def StdLib.jsonUnmarshalMETARs (lib : StdLib) (data : Bytes) :
    List dataAPIMETAR × Option GoError :=
  match lib.jsonSyntax data with
  | .error err => ([], some err)
  | .ok v =>
    let r := decodeSlice (str "dataAPIMETAR") (str "nws.dataAPIMETAR") (str "icaoId")
      (str "rawOb") v
    (r.1.map (fun f => ⟨f.1, f.2⟩), r.2)

/-- The call `json.Unmarshal(data, &tafs)` with `tafs := []dataAPITAF{}`. -/
def StdLib.jsonUnmarshalTAFs (lib : StdLib) (data : Bytes) :
    List dataAPITAF × Option GoError :=
  match lib.jsonSyntax data with
  | .error err => ([], some err)
  | .ok v =>
    let r := decodeSlice (str "dataAPITAF") (str "nws.dataAPITAF") (str "icaoId")
      (str "rawTAF") v
    (r.1.map (fun f => ⟨f.1, f.2⟩), r.2)

/-- An `*http.Response`: status line, status code, and what `io.ReadAll(resp.Body)` gives
(the bytes read, and the read error if the body broke off). -/
structure Response where
  Status : GoString
  StatusCode : Int
  Body : Bytes × Option GoError

/-- The URLs requested so far. -/
abbrev Log := List GoString

/-- The network: what `client.Get(url)` gives after the requests in the log, a transport
error or a response. -/
abbrev Network := Log → GoString → Except GoError Response

/-- The constant `http.StatusOK`. -/
def StatusOK : Int := 200

/-! ## `pkg/weather/nws/nws.go` -/

structure NWSProvider where
  addsMetarsCache : GoString
  addsTafsCache : GoString
  apiRootURL : GoString
  deriving DecidableEq, Repr

def NewNWSProviderOverride (metarCache tafCache apiRoot : GoString) : NWSProvider :=
  { addsMetarsCache := metarCache, addsTafsCache := tafCache, apiRootURL := apiRoot }

def NewNWSProvider : NWSProvider :=
  NewNWSProviderOverride
    (str "https://aviationweather.gov/data/cache/metars.cache.xml.gz")
    (str "https://aviationweather.gov/data/cache/tafs.cache.xml.gz")
    (str "https://aviationweather.gov/api/data")

/-- The function `downloadFile`: one GET; a transport error is returned as it is, a status
other than 200 is an error naming the status, otherwise the result of `io.ReadAll`. -/
def downloadFile (net : Network) (path : GoString) (log : Log) :
    (Option Bytes × Option GoError) × Log :=
  match net log path with
  | .error err => ((none, some err), log ++ [path])
  | .ok resp =>
    if resp.StatusCode ≠ StatusOK then
      ((none, some (.text (str "failed to download file: " ++ resp.Status))), log ++ [path])
    else ((some resp.Body.1, resp.Body.2), log ++ [path])

/-- The function `ungzip`. -/
def ungzip (lib : StdLib) (data : Option Bytes) : Option Bytes × Option GoError :=
  match lib.gzipReader (data.getD []) with
  | .error err => (none, some (.wrap (str "failed to create gzip reader: ") err))
  | .ok (out, readErr) => (some out, readErr)

/-- The function `unmarshalResponse`. -/
def unmarshalResponse (lib : StdLib) (data : Option Bytes) : Option response × Option GoError :=
  match lib.xmlUnmarshal (data.getD []) with
  | .error err => (none, some (.wrap (str "failed to unmarshal response: ") err))
  | .ok xmlResponse => (some xmlResponse, none)

/-- The function `processURL`. -/
def processURL (lib : StdLib) (net : Network) (cacheURL : GoString) (log : Log) :
    (Option response × Option GoError) × Log :=
  match downloadFile net cacheURL log with
  | ((_, some err), log1) =>
    ((none, some (.wrap (str "failed to download METARs: ") err)), log1)
  | ((metarsData, none), log1) =>
    match ungzip lib metarsData with
    | (_, some err) => ((none, some (.wrap (str "failed to ungzip METARs: ") err)), log1)
    | (metarsData2, none) => (unmarshalResponse lib metarsData2, log1)

/-- The panic of dereferencing a nil pointer. -/
def nilDereference : GoString :=
  str "runtime error: invalid memory address or nil pointer dereference"

/-- The panic of indexing an empty slice at 0. -/
def indexOutOfRange : GoString := str "runtime error: index out of range [0] with length 0"

/-- The function `processTAFs`. -/
def processTAFs (lib : StdLib) (net : Network) (cacheURL : GoString) (log : Log) :
    Outcome (Option GoMap × Option GoError) × Log :=
  match processURL lib net cacheURL log with
  | ((_, some err), log1) => (.ret (none, some (.wrap (str "failed to process tafs: ") err)), log1)
  | ((none, none), log1) => (.panic nilDereference, log1)
  | ((some xmlResponse, none), log1) =>
    (.ret (some (xmlResponse.TAFs.foldl (fun tafs taf => tafs.set taf.StationID taf.RawText) []),
      none), log1)

/-- The function `processMETARs`. -/
def processMETARs (lib : StdLib) (net : Network) (cacheURL : GoString) (log : Log) :
    Outcome (Option GoMap × Option GoError) × Log :=
  match processURL lib net cacheURL log with
  | ((_, some err), log1) =>
    (.ret (none, some (.wrap (str "failed to process metars: ") err)), log1)
  | ((none, none), log1) => (.panic nilDereference, log1)
  | ((some xmlResponse, none), log1) =>
    (.ret (some (xmlResponse.METARs.foldl
      (fun metars metar => metars.set metar.StationID metar.RawText) []), none), log1)

/-- The method `(*NWSProvider).Update`. -/
def NWSProvider.Update (lib : StdLib) (net : Network) (n : NWSProvider) (log : Log) :
    Outcome (Option GoMap × Option GoMap × Option GoError) × Log :=
  match processMETARs lib net n.addsMetarsCache log with
  | (.panic msg, log1) => (.panic msg, log1)
  | (.ret (_, some err), log1) =>
    (.ret (none, none, some (.wrap (str "failed to process metars: ") err)), log1)
  | (.ret (metars, none), log1) =>
    match processTAFs lib net n.addsTafsCache log1 with
    | (.panic msg, log2) => (.panic msg, log2)
    | (.ret (_, some err), log2) =>
      (.ret (none, none, some (.wrap (str "failed to process tafs: ") err)), log2)
    | (.ret (tafs, none), log2) => (.ret (metars, tafs, none), log2)

/-- The method `(*NWSProvider).getURL`. -/
def NWSProvider.getURL (lib : StdLib) (n : NWSProvider) (endpoint id : GoString) :
    GoString × Option GoError :=
  match Parse lib.quote (n.apiRootURL ++ str "/" ++ endpoint) with
  | .error err => ([], some (.wrap (str "failed to parse url: ") err))
  | .ok u =>
    let vals := URL.Query lib.quote u
    let vals := vals.Set (str "ids") id
    let vals := vals.Set (str "format") (str "json")
    let u := { u with RawQuery := vals.Encode }
    (URL.String lib.quote u, none)

/-- The method `(*NWSProvider).GetMETAR`. -/
def NWSProvider.GetMETAR (lib : StdLib) (net : Network) (n : NWSProvider) (station : GoString)
    (log : Log) : Outcome (GoString × Option GoError) × Log :=
  match n.getURL lib (str "metar") station with
  | (_, some err) => (.ret ([], some (.wrap (str "failed to get metar url: ") err)), log)
  | (uri, none) =>
    match downloadFile net uri log with
    | ((_, some err), log1) =>
      (.ret ([], some (.wrap (str "failed to download METAR: ") err)), log1)
    | ((data, none), log1) =>
      match lib.jsonUnmarshalMETARs (data.getD []) with
      | (_, some err) => (.ret ([], some (.wrap (str "failed to unmarshal METAR: ") err)), log1)
      | ([], none) => (.panic indexOutOfRange, log1)
      | (first :: _, none) => (.ret (first.Observation, none), log1)

/-- The method `(*NWSProvider).GetTAF`. -/
def NWSProvider.GetTAF (lib : StdLib) (net : Network) (n : NWSProvider) (station : GoString)
    (log : Log) : Outcome (GoString × Option GoError) × Log :=
  match n.getURL lib (str "taf") station with
  | (_, some err) => (.ret ([], some (.wrap (str "failed to get taf url: ") err)), log)
  | (uri, none) =>
    match downloadFile net uri log with
    | ((_, some err), log1) =>
      (.ret ([], some (.wrap (str "failed to download TAF: ") err)), log1)
    | ((data, none), log1) =>
      match lib.jsonUnmarshalTAFs (data.getD []) with
      | (_, some err) => (.ret ([], some (.wrap (str "failed to unmarshal TAF: ") err)), log1)
      | ([], none) => (.panic indexOutOfRange, log1)
      | (first :: _, none) => (.ret (first.Forecast, none), log1)

/-! ## `pkg/weather/weather.go` -/

/-- The interface `WeatherProvider`: three operations of an object with state `σ`; each
ends by returning or panicking and leaves a new state. -/
structure WeatherProvider (σ : Type) where
  Update : σ → Outcome (Option GoMap × Option GoMap × Option GoError) × σ
  GetMETAR : GoString → σ → Outcome (GoString × Option GoError) × σ
  GetTAF : GoString → σ → Outcome (GoString × Option GoError) × σ

structure WeatherService (σ : Type) where
  provider : WeatherProvider σ

def NewService {σ : Type} (provider : WeatherProvider σ) : WeatherService σ := { provider }

def WeatherService.Update {σ : Type} (s : WeatherService σ) :
    σ → Outcome (Option GoMap × Option GoMap × Option GoError) × σ :=
  s.provider.Update

def WeatherService.GetMETAR {σ : Type} (s : WeatherService σ) (station : GoString) :
    σ → Outcome (GoString × Option GoError) × σ :=
  s.provider.GetMETAR station

def WeatherService.GetTAF {σ : Type} (s : WeatherService σ) (station : GoString) :
    σ → Outcome (GoString × Option GoError) × σ :=
  s.provider.GetTAF station

/-- The NWS provider as a `WeatherProvider`; its state is the request log. -/
def NWSProvider.asWeatherProvider (lib : StdLib) (net : Network) (n : NWSProvider) :
    WeatherProvider Log where
  Update := n.Update lib net
  GetMETAR := n.GetMETAR lib net
  GetTAF := n.GetTAF lib net

/-- One call of a provider operation, as recorded by `traced`. -/
inductive Call where
  | update
  | getMETAR (station : GoString)
  | getTAF (station : GoString)
  deriving DecidableEq, Repr

/-- A provider that also records every operation called on it, in order. -/
def traced {σ : Type} (p : WeatherProvider σ) : WeatherProvider (σ × List Call) where
  Update := fun st => ((p.Update st.1).1, ((p.Update st.1).2, st.2 ++ [Call.update]))
  GetMETAR := fun station st =>
    ((p.GetMETAR station st.1).1, ((p.GetMETAR station st.1).2, st.2 ++ [Call.getMETAR station]))
  GetTAF := fun station st =>
    ((p.GetTAF station st.1).1, ((p.GetTAF station st.1).2, st.2 ++ [Call.getTAF station]))

/-! ## Notions used in the statements, and example data -/

/-- A reply with the given status and complete body. -/
def reply (code : Int) (status : GoString) (body : Bytes) : Except GoError Response :=
  .ok { Status := status, StatusCode := code, Body := (body, none) }

def netNotFound : Network := fun _ _ => reply 404 (str "404 Not Found") (str "not found")

def netOK : Network := fun _ _ => reply 200 (str "200 OK") (str "ok")

/-- The download stage fails on a reply: transport error, status other than 200, or a body
that breaks off. -/
def downloadFails (r : Except GoError Response) : Bool :=
  match r with
  | .error _ => true
  | .ok resp => decide (resp.StatusCode ≠ 200) || resp.Body.2.isSome

/-- The decompress stage fails on a downloaded body. -/
def decompressFails (lib : StdLib) (body : Bytes) : Bool :=
  match lib.gzipReader body with
  | .error _ => true
  | .ok (_, readErr) => readErr.isSome

/-- The parse stage fails on a decompressed body. -/
def parseFails (lib : StdLib) (body : Bytes) : Bool :=
  match lib.gzipReader body with
  | .error _ => false
  | .ok (out, _) =>
    match lib.xmlUnmarshal out with
    | .error _ => true
    | .ok _ => false

/-- Some stage of the snapshot pipeline fails on a reply. -/
def stageFails (lib : StdLib) (r : Except GoError Response) : Bool :=
  downloadFails r ||
    (match r with
      | .error _ => false
      | .ok resp => decompressFails lib resp.Body.1 || parseFails lib resp.Body.1)

/-- The loop `for _, x := range xs { m[key(x)] = val(x) }`. -/
def fill {α : Type} (key val : α → GoString) (xs : List α) (m : GoMap) : GoMap :=
  xs.foldl (fun acc x => acc.set (key x) (val x)) m

/-- A standard library for the examples: `strconv.Quote` puts the text in double quotes,
every gzip stream decompresses to itself, every XML document holds the records `resp`, the
JSON text `jsonText` is the value `json` and every other text is a syntax error. -/
def exampleLib (resp : response) (jsonText : Bytes) (json : JSON) : StdLib where
  quote := fun s => [34] ++ s ++ [34]
  gzipReader := fun data => .ok (data, none)
  xmlUnmarshal := fun _ => .ok resp
  jsonSyntax := fun data =>
    if data = jsonText then .ok json else .error (.text (str "invalid character"))

/-- A network that answers every request with status 200 and the given body. -/
def netServing (body : Bytes) : Network := fun _ _ => reply 200 (str "200 OK") body

/-- A string field of a record accepts a JSON string or `null`. -/
def JSON.fitsString : JSON → Bool
  | .string _ => true
  | .null => true
  | _ => false

/-- The member name `key` selects the field called `name`: the same name, or the same up
to the case of letters. -/
def namesField (name key : GoString) : Bool := decide (key = name ∨ foldName key = foldName name)

/-- A member that selects one of the two fields and holds neither a string nor `null`. -/
def misfitMember (name1 name2 : GoString) (member : GoString × JSON) : Bool :=
  (namesField name1 member.1 || namesField name2 member.1) && !member.2.fitsString

/-- An array element that does not fit a two-field record: neither an object nor `null`, or
an object with a misfit member. -/
def misfitElem (name1 name2 : GoString) : JSON → Bool
  | .object members => members.any (misfitMember name1 name2)
  | .null => false
  | _ => true

/-- A JSON value that does not fit a slice of two-field records: neither an array nor
`null`, or an array with a misfit element. -/
def misfit (name1 name2 : GoString) : JSON → Bool
  | .array elems => elems.any (misfitElem name1 name2)
  | .null => false
  | _ => true

/-- A snapshot with two METAR records of one station and two TAF records of one station. -/
def duplicateSnapshot : response where
  METARs := [⟨str "PAFA", str "old"⟩, ⟨str "PAFA", str "new"⟩]
  TAFs := [⟨str "PAFA", str "early"⟩, ⟨str "PANC", str "x"⟩, ⟨str "PAFA", str "late"⟩]

/-- A snapshot with records of distinct stations. -/
def uniqueSnapshot : response where
  METARs := [⟨str "PAFA", str "m1"⟩, ⟨str "PANC", str "m2"⟩]
  TAFs := [⟨str "PAFA", str "t1"⟩]

/-- The provider of the examples. -/
def exampleProvider : NWSProvider :=
  NewNWSProviderOverride (str "http://h/metar.xml.gz") (str "http://h/taf.xml.gz") (str "http://h")

/-- A network that serves every URL but the TAF snapshot, which is not found. -/
def netTafNotFound : Network := fun _ url =>
  if url = str "http://h/taf.xml.gz" then reply 404 (str "404 Not Found") (str "not found")
  else reply 200 (str "200 OK") (str "ok")

/-- The map `m` holds exactly the records `recs` (station ID, raw text): as many entries as
records, the station IDs as its keys, and under each the raw text of the record. -/
def holdsExactly (m : GoMap) (recs : List (GoString × GoString)) : Prop :=
  m.len = recs.length
    ∧ (∀ k, k ∈ m.keys ↔ k ∈ recs.map Prod.fst)
    ∧ (∀ x ∈ recs, m.get? x.1 = some x.2)

/-- The JSON text `[]`. -/
def emptyArrayText : Bytes := str "[]"

/-- The JSON text `[{"icaoId":"PAFA","rawOb":"PAFA 061453Z"}]` and its value. -/
def metarText : Bytes := str "[\x7b\"icaoId\":\"PAFA\",\"rawOb\":\"PAFA 061453Z\"\x7d]"

def metarJSON : JSON :=
  .array [.object [(str "icaoId", .string (str "PAFA")), (str "rawOb", .string (str "PAFA 061453Z"))]]

/-- The JSON text `[{"icaoId":"PAFA","rawTAF":"PAFA 061120Z"}]` and its value. -/
def tafText : Bytes := str "[\x7b\"icaoId\":\"PAFA\",\"rawTAF\":\"PAFA 061120Z\"\x7d]"

def tafJSON : JSON :=
  .array [.object [(str "icaoId", .string (str "PAFA")), (str "rawTAF", .string (str "PAFA 061120Z"))]]

/-- The JSON text `[{}]` and its value: one object without members. -/
def emptyObjectText : Bytes := str "[\x7b\x7d]"

def emptyObjectJSON : JSON := .array [.object []]

/-- The JSON text `[{"rawOb":5,"rawTAF":5}]` and its value: numbers where strings belong. -/
def numberText : Bytes := str "[\x7b\"rawOb\":5,\"rawTAF\":5\x7d]"

def numberJSON : JSON :=
  .array [.object [(str "rawOb", .number (str "5")), (str "rawTAF", .number (str "5"))]]

/-- A URL without query and without fragment. -/
def URL.plain (u : URL) : Prop :=
  u.RawQuery = [] ∧ u.ForceQuery = false ∧ u.Fragment = [] ∧ u.RawFragment = []


/-- A provider whose API root is `https://x/y`. -/
def xyProvider : NWSProvider :=
  NewNWSProviderOverride (str "http://h/metar.xml.gz") (str "http://h/taf.xml.gz") (str "https://x/y")

/-- A provider whose API root is `HTTPS://x/y`, the same root with the scheme in capitals. -/
def capitalSchemeProvider : NWSProvider :=
  NewNWSProviderOverride (str "http://h/metar.xml.gz") (str "http://h/taf.xml.gz") (str "HTTPS://x/y")

/-- The string a JSON value is, if it is one. -/
def JSON.string? : JSON → Option GoString
  | .string s => some s
  | _ => none

/-- The text an array element holds under the member name `name`: the string of the last
member that selects the field `name` and holds a string; empty when there is no such member
and when the element is not an object. -/
def memberText (name : GoString) : JSON → GoString
  | .object members =>
    ((members.filterMap (fun m => if namesField name m.1 then m.2.string? else none)).getLast?).getD
      []
  | _ => []

/-- The JSON text `[{"icaoId":"PAFA","rawOb":"X","rawTAF":"X"},5]` and its value: a fitting
first element followed by a number. -/
def laterNumberText : Bytes :=
  str "[\x7b\"icaoId\":\"PAFA\",\"rawOb\":\"X\",\"rawTAF\":\"X\"\x7d,5]"

def laterNumberJSON : JSON :=
  .array [.object [(str "icaoId", .string (str "PAFA")), (str "rawOb", .string (str "X")),
    (str "rawTAF", .string (str "X"))], .number (str "5")]

/-- The JSON text `[{"icaoId":5,"rawOb":"X","rawTAF":"X"}]` and its value: one element whose
`icaoId` is a number. -/
def numberIdText : Bytes := str "[\x7b\"icaoId\":5,\"rawOb\":\"X\",\"rawTAF\":\"X\"\x7d]"

def numberIdJSON : JSON :=
  .array [.object [(str "icaoId", .number (str "5")), (str "rawOb", .string (str "X")),
    (str "rawTAF", .string (str "X"))]]

/-- The JSON text `[{"icaoId":"PAFA","rawOb":"X","RAWOB":"Y"},{"icaoId":"PANC"},null]` and
its value: a first element with two members that select `rawOb`, then other elements. -/
def twoTextsText : Bytes :=
  str ("[\x7b\"icaoId\":\"PAFA\",\"rawOb\":\"X\",\"RAWOB\":\"Y\"\x7d," ++
    "\x7b\"icaoId\":\"PANC\"\x7d,null]")

def twoTextsJSON : JSON :=
  .array [.object [(str "icaoId", .string (str "PAFA")), (str "rawOb", .string (str "X")),
    (str "RAWOB", .string (str "Y"))], .object [(str "icaoId", .string (str "PANC"))], .null]

/-- A text without `?` and without `#`. -/
def clean (s : GoString) : Bool := s.all (fun x => x != 63 && x != 35)

/-- The query of a URL text: what stands after the first `?`, the fragment (from the first
`#` on) left off. -/
def queryOfText (url : GoString) : GoString := (cut (cut url 35).1 63).2.1

/-- The steps of `parse` that follow the cutting of the query: from the URL so far (scheme
and query set) and the rest of the text to the rootless part or to authority and path. -/
def parseTail (quote : GoString → GoString) (url1 : URL) (rest : GoString)
    (viaRequest : Bool) : Except GoError URL :=
  if rest.head? ≠ some 47 ∧ url1.Scheme ≠ [] then .ok { url1 with Opaque := rest }
  else if rest.head? ≠ some 47 ∧ viaRequest then
    .error (.text (str "invalid URI for request"))
  else if rest.head? ≠ some 47 ∧ (cut rest 47).1.contains 58 then
    .error (.text (str "first path segment in URL cannot contain colon"))
  else if (url1.Scheme ≠ [] ∨ (!viaRequest ∧ ¬ (str "///").isPrefixOf rest))
      ∧ (str "//").isPrefixOf rest then
    let authority0 := rest.drop 2
    let (authority, rest2) : GoString × GoString :=
      match authority0.indexOf? 47 with
      | some i => (authority0.take i, authority0.drop i)
      | none => (authority0, [])
    match parseAuthority quote authority with
    | .error e => .error e
    | .ok (user, host) => URL.setPath quote { url1 with User := user, Host := host } rest2
  else if url1.Scheme ≠ [] ∧ rest.head? = some 47 then
    URL.setPath quote { url1 with OmitHost := true } rest
  else URL.setPath quote url1 rest

/-! ## The transport fetcher -/

/-- C7: whatever response `downloadFile` receives, a status code other than 200 gives nil bytes
and a non-nil error whose text carries the response status, and a status code of 200 with a
body that reads completely as `b` gives exactly `b` (the empty body included) and a nil
error. -/
theorem downloadFile_status (net : Network) (path : GoString) (log : Log) (resp : Response)
    (hresp : net log path = .ok resp) :
    (resp.StatusCode ≠ 200 →
      ∃ err, (downloadFile net path log).1 = (none, some err)
        ∧ err.Error = str "failed to download file: " ++ resp.Status)
    ∧ (∀ b, resp.StatusCode = 200 → resp.Body = (b, none) →
        (downloadFile net path log).1 = (some b, none)) := by
  constructor
  · intro hne
    refine ⟨.text (str "failed to download file: " ++ resp.Status), ?_, rfl⟩
    simp [downloadFile, hresp, StatusOK, hne]
  · intro b hcode hbody
    simp [downloadFile, hresp, StatusOK, hcode, hbody]

/-- Witness of C7: a `404 Not Found` reply gives the error `failed to download file: 404 Not
Found` and no data; a `200 OK` reply with body `ok` gives the bytes `ok`. -/
theorem downloadFile_status_witness :
    (∃ err, (downloadFile netNotFound (str "http://h/notfound") []).1 = (none, some err)
        ∧ err.Error = str "failed to download file: 404 Not Found")
    ∧ (downloadFile netOK (str "http://h/ok") []).1 = (some (str "ok"), none) :=
  ⟨(downloadFile_status netNotFound (str "http://h/notfound") [] _ rfl).1 (by decide),
   (downloadFile_status netOK (str "http://h/ok") [] _ rfl).2 (str "ok") rfl rfl⟩

/-! ## The snapshot pipeline: download, decompress, parse -/

theorem processURL_cases (lib : StdLib) (net : Network) (url : GoString) (log : Log) :
    (∃ err, processURL lib net url log = ((none, some err), log ++ [url])
        ∧ stageFails lib (net log url) = true)
    ∨ (∃ r, processURL lib net url log = ((some r, none), log ++ [url])
        ∧ stageFails lib (net log url) = false) := by
  unfold processURL downloadFile stageFails downloadFails decompressFails parseFails
    ungzip unmarshalResponse
  cases hnet : net log url with
  | error e => left; exact ⟨_, rfl, rfl⟩
  | ok resp =>
    obtain ⟨status, code, body, rerr⟩ := resp
    by_cases hcode : code = 200
    · subst hcode
      cases rerr with
      | some e => left; simp [StatusOK]
      | none =>
        simp only [StatusOK, ne_eq, not_true_eq_false, if_false, Option.getD_some]
        cases hz : lib.gzipReader body with
        | error e => left; simp
        | ok out =>
          obtain ⟨out, zerr⟩ := out
          cases zerr with
          | some e => left; simp
          | none =>
            cases hx : lib.xmlUnmarshal out with
            | error e => left; simp [hx]
            | ok r => right; simp [hx]
    · left; simp [StatusOK, hcode]

theorem processMETARs_cases (lib : StdLib) (net : Network) (url : GoString) (log : Log) :
    (∃ err, processURL lib net url log = ((none, some err), log ++ [url])
        ∧ processMETARs lib net url log =
          (.ret (none, some (.wrap (str "failed to process metars: ") err)), log ++ [url]))
    ∨ (∃ r, processURL lib net url log = ((some r, none), log ++ [url])
        ∧ processMETARs lib net url log =
          (.ret (some (r.METARs.foldl (fun m x => m.set x.StationID x.RawText) []), none),
            log ++ [url])) := by
  rcases processURL_cases lib net url log with ⟨err, h, _⟩ | ⟨r, h, _⟩
  · left; exact ⟨err, h, by simp [processMETARs, h]⟩
  · right; exact ⟨r, h, by simp [processMETARs, h]⟩

theorem processTAFs_cases (lib : StdLib) (net : Network) (url : GoString) (log : Log) :
    (∃ err, processURL lib net url log = ((none, some err), log ++ [url])
        ∧ processTAFs lib net url log =
          (.ret (none, some (.wrap (str "failed to process tafs: ") err)), log ++ [url]))
    ∨ (∃ r, processURL lib net url log = ((some r, none), log ++ [url])
        ∧ processTAFs lib net url log =
          (.ret (some (r.TAFs.foldl (fun m x => m.set x.StationID x.RawText) []), none),
            log ++ [url])) := by
  rcases processURL_cases lib net url log with ⟨err, h, _⟩ | ⟨r, h, _⟩
  · left; exact ⟨err, h, by simp [processTAFs, h]⟩
  · right; exact ⟨r, h, by simp [processTAFs, h]⟩

/-! ## Maps and the normalisation loop -/

theorem GoMap.get?_set_self (m : GoMap) (k v : GoString) : (m.set k v).get? k = some v := by
  induction m with
  | nil => simp [GoMap.set, GoMap.get?]
  | cons e rest ih =>
    obtain ⟨k0, v0⟩ := e
    by_cases h : k0 = k
    · simp [GoMap.set, GoMap.get?, h]
    · simp [GoMap.set, GoMap.get?, h, ih]

theorem GoMap.get?_set_ne (m : GoMap) (k v k1 : GoString) (hne : k ≠ k1) :
    (m.set k v).get? k1 = m.get? k1 := by
  induction m with
  | nil => simp [GoMap.set, GoMap.get?, hne]
  | cons e rest ih =>
    obtain ⟨k0, v0⟩ := e
    by_cases h : k0 = k
    · subst h; simp [GoMap.set, GoMap.get?, hne]
    · by_cases h1 : k0 = k1
      · subst h1; simp [GoMap.set, GoMap.get?, h]
      · simp [GoMap.set, GoMap.get?, h, h1, ih]

theorem GoMap.keys_set (m : GoMap) (k v : GoString) :
    (m.set k v).keys = if k ∈ m.keys then m.keys else m.keys ++ [k] := by
  induction m with
  | nil => simp [GoMap.set, GoMap.keys]
  | cons e rest ih =>
    obtain ⟨k0, v0⟩ := e
    by_cases h : k0 = k
    · subst h; simp [GoMap.set, GoMap.keys]
    · have h2 : ¬ k = k0 := fun h3 => h h3.symm
      simp only [GoMap.keys] at ih
      simp only [GoMap.set, h, if_false, GoMap.keys, List.map_cons, List.mem_cons, h2, false_or,
        ih]
      split <;> simp

theorem GoMap.set_of_not_mem (m : GoMap) (k v : GoString) (h : k ∉ m.keys) :
    m.set k v = m ++ [(k, v)] := by
  induction m with
  | nil => rfl
  | cons e rest ih =>
    obtain ⟨k0, v0⟩ := e
    simp only [GoMap.keys, List.map_cons, List.mem_cons, not_or] at h
    have h0 : ¬ k0 = k := fun h3 => h.1 h3.symm
    simp only [GoMap.set, h0, if_false, List.cons_append]
    rw [ih (by simpa [GoMap.keys] using h.2)]

theorem fill_keys_nodup {α : Type} (key val : α → GoString) (xs : List α) (m : GoMap)
    (h : m.keys.Nodup) : (fill key val xs m).keys.Nodup := by
  induction xs generalizing m with
  | nil => exact h
  | cons x xs ih =>
    apply ih
    rw [GoMap.keys_set]
    split
    · exact h
    · rename_i hk
      exact List.Nodup.append h (List.nodup_singleton _) (by simpa using hk)

theorem fill_mem_keys {α : Type} (key val : α → GoString) (xs : List α) (m : GoMap)
    (k : GoString) : k ∈ (fill key val xs m).keys ↔ k ∈ m.keys ∨ k ∈ xs.map key := by
  induction xs generalizing m with
  | nil => simp [fill]
  | cons x xs ih =>
    have := ih (m.set (key x) (val x))
    simp only [fill, List.foldl_cons] at this ⊢
    rw [this, GoMap.keys_set]
    by_cases hk : key x ∈ m.keys
    · simp only [hk, if_true, List.map_cons, List.mem_cons]
      constructor
      · rintro (h | h)
        · exact Or.inl h
        · exact Or.inr (Or.inr h)
      · rintro (h | h | h)
        · exact Or.inl h
        · exact Or.inl (h ▸ hk)
        · exact Or.inr h
    · simp only [hk, if_false, List.mem_append, List.mem_singleton, List.map_cons, List.mem_cons]
      tauto

theorem fill_get? {α : Type} (key val : α → GoString) (xs : List α) (m : GoMap)
    (k : GoString) :
    (fill key val xs m).get? k =
      match (xs.filter (fun x => key x = k)).getLast? with
      | some x => some (val x)
      | none => m.get? k := by
  induction xs generalizing m with
  | nil => simp [fill]
  | cons x xs ih =>
    have := ih (m.set (key x) (val x))
    simp only [fill, List.foldl_cons] at this ⊢
    rw [this]
    by_cases hk : key x = k
    · simp only [List.filter_cons, hk, decide_True, if_true]
      cases hl : (xs.filter (fun x => key x = k)) with
      | nil => simp only [List.getLast?_nil, List.getLast?_singleton, GoMap.get?_set_self]
      | cons y ys =>
        rw [List.getLast?_cons_cons, List.getLast?_eq_getLast (y :: ys) (by simp)]
    · simp only [List.filter_cons, hk, decide_False, Bool.false_eq_true, if_false]
      cases hl : (xs.filter (fun x => key x = k)).getLast? with
      | none => simp only [GoMap.get?_set_ne _ _ _ _ hk]
      | some y => rfl

theorem fill_of_nodup {α : Type} (key val : α → GoString) (xs : List α) (m : GoMap)
    (hn : (xs.map key).Nodup) (hd : ∀ x ∈ xs, key x ∉ m.keys) :
    fill key val xs m = m ++ xs.map (fun x => (key x, val x)) := by
  induction xs generalizing m with
  | nil => simp [fill]
  | cons x xs ih =>
    simp only [List.map_cons, List.nodup_cons] at hn
    have hx : key x ∉ m.keys := hd x (List.mem_cons_self _ _)
    simp only [fill, List.foldl_cons]
    have := ih (m.set (key x) (val x)) hn.2 (by
      intro y hy
      rw [GoMap.keys_set]
      simp only [hx, if_false, List.mem_append, List.mem_singleton, not_or]
      refine ⟨hd y (List.mem_cons_of_mem _ hy), ?_⟩
      intro h
      exact hn.1 (h ▸ List.mem_map_of_mem key hy))
    simp only [fill] at this
    rw [this, GoMap.set_of_not_mem _ _ _ hx]
    simp
theorem GoMap.get?_of_mem (m : GoMap) (hn : m.keys.Nodup) (k v : GoString) (h : (k, v) ∈ m) :
    m.get? k = some v := by
  induction m with
  | nil => simp at h
  | cons e rest ih =>
    obtain ⟨k0, v0⟩ := e
    simp only [GoMap.keys, List.map_cons, List.nodup_cons] at hn
    rcases List.mem_cons.1 h with h1 | h1
    · cases h1; simp [GoMap.get?]
    · have hne : ¬ k0 = k := by
        intro h2
        subst h2
        exact hn.1 (List.mem_map_of_mem Prod.fst h1)
      simp only [GoMap.get?, hne, if_false]
      exact ih hn.2 h1

theorem GoMap.one_entry (m : GoMap) (hn : m.keys.Nodup) (k : GoString) (h : k ∈ m.keys) :
    (m.filter (fun e => e.1 = k)).length = 1 := by
  induction m with
  | nil => simp [GoMap.keys] at h
  | cons e rest ih =>
    obtain ⟨k0, v0⟩ := e
    simp only [GoMap.keys, List.map_cons, List.nodup_cons, List.mem_cons] at hn h
    by_cases hk : k0 = k
    · subst hk
      have : rest.filter (fun e => e.1 = k0) = [] := by
        rw [List.filter_eq_nil_iff]
        intro e he
        have : e.1 ≠ k0 := fun h2 => hn.1 (h2 ▸ List.mem_map_of_mem Prod.fst he)
        simpa using this
      simp [List.filter_cons, this]
    · have hk2 : ¬ k = k0 := fun h2 => hk h2.symm
      simp only [List.filter_cons, hk, decide_False, Bool.false_eq_true, if_false]
      exact ih hn.2 (by simpa [GoMap.keys, hk2] using h)

theorem fill_holdsExactly {α : Type} (key val : α → GoString) (xs : List α)
    (hn : (xs.map key).Nodup) :
    holdsExactly (fill key val xs []) (xs.map (fun x => (key x, val x))) := by
  have hfill := fill_of_nodup key val xs [] hn (by simp [GoMap.keys])
  have hkeys : (fill key val xs []).keys = xs.map key := by
    rw [hfill]; simp [GoMap.keys, Function.comp_def]
  refine ⟨by rw [hfill]; simp [GoMap.len], ?_, ?_⟩
  · intro k
    rw [hkeys]; simp [Function.comp_def]
  · intro x hx
    apply GoMap.get?_of_mem _ (by rw [hkeys]; exact hn)
    rw [hfill]; simpa using hx

theorem fill_last_wins {α : Type} [DecidableEq α] (key val : α → GoString) (xs : List α)
    (id : GoString) (h : 2 ≤ (xs.filter (fun x => key x = id)).length) :
    ∃ last, (xs.filter (fun x => key x = id)).getLast? = some last
      ∧ (fill key val xs []).get? id = some (val last)
      ∧ ((fill key val xs []).filter (fun e => e.1 = id)).length = 1 := by
  have hne : xs.filter (fun x => key x = id) ≠ [] := by
    intro h0
    rw [h0] at h
    simp at h
  obtain ⟨x, hx⟩ := List.exists_mem_of_ne_nil _ hne
  have hmem : id ∈ xs.map key := by
    have := List.mem_filter.1 hx
    exact List.mem_map.2 ⟨x, this.1, by simpa using this.2⟩
  refine ⟨_, List.getLast?_eq_getLast _ hne, ?_, ?_⟩
  · rw [fill_get?, List.getLast?_eq_getLast _ hne]
  · apply GoMap.one_entry _ (fill_keys_nodup key val xs [] (by simp [GoMap.keys]))
    rw [fill_mem_keys]
    exact Or.inr hmem

/-! ## Normalisation of a snapshot -/

/-- C2: in `processMETARs` and in `processTAFs`, a station ID carried by two or more records
of the parsed snapshot has exactly one entry in the resulting map, and its value is the raw
text of the last of these records in document order. -/
theorem duplicate_station_last_wins (lib : StdLib) (net : Network) (url : GoString) (log : Log)
    (resp : response) (id : GoString)
    (hresp : (processURL lib net url log).1 = (some resp, none)) :
    (2 ≤ (resp.METARs.filter (fun r => r.StationID = id)).length →
      ∃ m last, (processMETARs lib net url log).1 = .ret (some m, none)
        ∧ (resp.METARs.filter (fun r => r.StationID = id)).getLast? = some last
        ∧ m.get? id = some last.RawText
        ∧ (m.filter (fun e => e.1 = id)).length = 1)
    ∧ (2 ≤ (resp.TAFs.filter (fun r => r.StationID = id)).length →
      ∃ m last, (processTAFs lib net url log).1 = .ret (some m, none)
        ∧ (resp.TAFs.filter (fun r => r.StationID = id)).getLast? = some last
        ∧ m.get? id = some last.RawText
        ∧ (m.filter (fun e => e.1 = id)).length = 1) := by
  constructor
  · intro h
    obtain ⟨last, h1, h2, h3⟩ := fill_last_wins METAR.StationID METAR.RawText resp.METARs id h
    refine ⟨_, last, ?_, h1, h2, h3⟩
    rcases processMETARs_cases lib net url log with ⟨err, hp, _⟩ | ⟨r, hp, hm⟩
    · rw [hp] at hresp; simp at hresp
    · rw [hp] at hresp
      simp only [Prod.mk.injEq, Option.some.injEq, and_true] at hresp
      subst hresp
      rw [hm]; rfl
  · intro h
    obtain ⟨last, h1, h2, h3⟩ := fill_last_wins TAF.StationID TAF.RawText resp.TAFs id h
    refine ⟨_, last, ?_, h1, h2, h3⟩
    rcases processTAFs_cases lib net url log with ⟨err, hp, _⟩ | ⟨r, hp, hm⟩
    · rw [hp] at hresp; simp at hresp
    · rw [hp] at hresp
      simp only [Prod.mk.injEq, Option.some.injEq, and_true] at hresp
      subst hresp
      rw [hm]; rfl

/-- Witness of C2: a snapshot with two METAR records and two TAF records of `PAFA`. -/
theorem duplicate_station_last_wins_witness :
    (∃ m last, (processMETARs (exampleLib duplicateSnapshot [] .null) netOK (str "u") []).1
          = .ret (some m, none)
        ∧ (duplicateSnapshot.METARs.filter (fun r => r.StationID = str "PAFA")).getLast?
          = some last
        ∧ m.get? (str "PAFA") = some last.RawText
        ∧ (m.filter (fun e => e.1 = str "PAFA")).length = 1)
    ∧ (∃ m last, (processTAFs (exampleLib duplicateSnapshot [] .null) netOK (str "u") []).1
          = .ret (some m, none)
        ∧ (duplicateSnapshot.TAFs.filter (fun r => r.StationID = str "PAFA")).getLast?
          = some last
        ∧ m.get? (str "PAFA") = some last.RawText
        ∧ (m.filter (fun e => e.1 = str "PAFA")).length = 1) :=
  ⟨(duplicate_station_last_wins (exampleLib duplicateSnapshot [] .null) netOK (str "u") []
      duplicateSnapshot (str "PAFA") rfl).1 (by decide),
   (duplicate_station_last_wins (exampleLib duplicateSnapshot [] .null) netOK (str "u") []
      duplicateSnapshot (str "PAFA") rfl).2 (by decide)⟩
theorem processMETARs_ok (lib : StdLib) (net : Network) (url : GoString) (log : Log)
    (resp : response) (h : (processURL lib net url log).1 = (some resp, none)) :
    processMETARs lib net url log =
      (.ret (some (fill METAR.StationID METAR.RawText resp.METARs []), none), log ++ [url]) := by
  rcases processMETARs_cases lib net url log with ⟨err, hp, _⟩ | ⟨r, hp, hm⟩
  · rw [hp] at h; simp at h
  · rw [hp] at h
    simp only [Prod.mk.injEq, Option.some.injEq, and_true] at h
    subst h
    rw [hm]; rfl

theorem processTAFs_ok (lib : StdLib) (net : Network) (url : GoString) (log : Log)
    (resp : response) (h : (processURL lib net url log).1 = (some resp, none)) :
    processTAFs lib net url log =
      (.ret (some (fill TAF.StationID TAF.RawText resp.TAFs []), none), log ++ [url]) := by
  rcases processTAFs_cases lib net url log with ⟨err, hp, _⟩ | ⟨r, hp, hm⟩
  · rw [hp] at h; simp at h
  · rw [hp] at h
    simp only [Prod.mk.injEq, Option.some.injEq, and_true] at h
    subst h
    rw [hm]; rfl

theorem processMETARs_err (lib : StdLib) (net : Network) (url : GoString) (log : Log)
    (err : GoError) (h : (processURL lib net url log).1.2 = some err) :
    processMETARs lib net url log =
      (.ret (none, some (.wrap (str "failed to process metars: ") err)), log ++ [url]) := by
  rcases processMETARs_cases lib net url log with ⟨e, hp, hm⟩ | ⟨r, hp, _⟩
  · rw [hp] at h
    simp only [Option.some.injEq] at h
    subst h
    exact hm
  · rw [hp] at h; simp at h

theorem processTAFs_err (lib : StdLib) (net : Network) (url : GoString) (log : Log)
    (err : GoError) (h : (processURL lib net url log).1.2 = some err) :
    processTAFs lib net url log =
      (.ret (none, some (.wrap (str "failed to process tafs: ") err)), log ++ [url]) := by
  rcases processTAFs_cases lib net url log with ⟨e, hp, hm⟩ | ⟨r, hp, _⟩
  · rw [hp] at h
    simp only [Option.some.injEq] at h
    subst h
    exact hm
  · rw [hp] at h; simp at h

/-- C3: when the snapshot was fetched, decompressed and parsed and the station IDs of its
METAR records (of its TAF records) are pairwise distinct, `processMETARs` (`processTAFs`)
returns, with a nil error, a map that holds exactly these records: as many entries as records,
the station IDs as its keys, each with the raw text of its record; and `Update` returns the
two such maps and a nil error. -/
theorem unique_stations_exact_maps (lib : StdLib) (net : Network) (n : NWSProvider) (log : Log)
    (url : GoString) (resp : response)
    (hresp : (processURL lib net url log).1 = (some resp, none)) :
    ((resp.METARs.map METAR.StationID).Nodup →
      ∃ m, (processMETARs lib net url log).1 = .ret (some m, none)
        ∧ holdsExactly m (resp.METARs.map (fun r => (r.StationID, r.RawText))))
    ∧ ((resp.TAFs.map TAF.StationID).Nodup →
      ∃ m, (processTAFs lib net url log).1 = .ret (some m, none)
        ∧ holdsExactly m (resp.TAFs.map (fun r => (r.StationID, r.RawText))))
    ∧ (∀ rm rt,
        (processURL lib net n.addsMetarsCache log).1 = (some rm, none) →
        (processURL lib net n.addsTafsCache (log ++ [n.addsMetarsCache])).1 = (some rt, none) →
        (rm.METARs.map METAR.StationID).Nodup → (rt.TAFs.map TAF.StationID).Nodup →
        ∃ metars tafs, (n.Update lib net log).1 = .ret (some metars, some tafs, none)
          ∧ holdsExactly metars (rm.METARs.map (fun r => (r.StationID, r.RawText)))
          ∧ holdsExactly tafs (rt.TAFs.map (fun r => (r.StationID, r.RawText)))) := by
  refine ⟨fun hn => ⟨_, ?_, fill_holdsExactly _ _ _ hn⟩,
    fun hn => ⟨_, ?_, fill_holdsExactly _ _ _ hn⟩, ?_⟩
  · rw [processMETARs_ok lib net url log resp hresp]
  · rw [processTAFs_ok lib net url log resp hresp]
  · intro rm rt hm ht hnm hnt
    refine ⟨_, _, ?_, fill_holdsExactly _ _ _ hnm, fill_holdsExactly _ _ _ hnt⟩
    simp only [NWSProvider.Update, processMETARs_ok lib net _ log rm hm,
      processTAFs_ok lib net _ _ rt ht]

/-- Witness of C3: a snapshot with two METAR records and one TAF record of distinct stations. -/
theorem unique_stations_exact_maps_witness :
    (∃ m, (processMETARs (exampleLib uniqueSnapshot [] .null) netOK (str "u") []).1
          = .ret (some m, none)
        ∧ holdsExactly m (uniqueSnapshot.METARs.map (fun r => (r.StationID, r.RawText))))
    ∧ (∃ m, (processTAFs (exampleLib uniqueSnapshot [] .null) netOK (str "u") []).1
          = .ret (some m, none)
        ∧ holdsExactly m (uniqueSnapshot.TAFs.map (fun r => (r.StationID, r.RawText))))
    ∧ (∃ metars tafs,
        (exampleProvider.Update (exampleLib uniqueSnapshot [] .null) netOK []).1
          = .ret (some metars, some tafs, none)
        ∧ holdsExactly metars (uniqueSnapshot.METARs.map (fun r => (r.StationID, r.RawText)))
        ∧ holdsExactly tafs (uniqueSnapshot.TAFs.map (fun r => (r.StationID, r.RawText)))) :=
  ⟨(unique_stations_exact_maps (exampleLib uniqueSnapshot [] .null) netOK exampleProvider []
      (str "u") uniqueSnapshot rfl).1 (by decide),
   (unique_stations_exact_maps (exampleLib uniqueSnapshot [] .null) netOK exampleProvider []
      (str "u") uniqueSnapshot rfl).2.1 (by decide),
   (unique_stations_exact_maps (exampleLib uniqueSnapshot [] .null) netOK exampleProvider []
      (str "u") uniqueSnapshot rfl).2.2 uniqueSnapshot uniqueSnapshot rfl rfl
      (by decide) (by decide)⟩

/-! ## The bulk refresh `Update` -/

/-- C5: `Update` always returns; when it returns a non-nil error both maps are nil, also when
the METAR snapshot was processed and only the TAF snapshot failed; and it returns a non-nil
error exactly when a stage (download, decompress, parse) of the METAR snapshot or of the TAF
snapshot fails. -/
theorem Update_all_or_nothing (lib : StdLib) (net : Network) (n : NWSProvider) (log : Log) :
    (∃ r, (n.Update lib net log).1 = .ret r)
    ∧ (∀ metars tafs err, (n.Update lib net log).1 = .ret (metars, tafs, some err) →
        metars = none ∧ tafs = none)
    ∧ (∀ m, (processMETARs lib net n.addsMetarsCache log).1 = .ret (some m, none) →
        stageFails lib (net (log ++ [n.addsMetarsCache]) n.addsTafsCache) = true →
        ∃ err, (n.Update lib net log).1 = .ret (none, none, some err))
    ∧ ((∃ err, (n.Update lib net log).1 = .ret (none, none, some err)) ↔
        (stageFails lib (net log n.addsMetarsCache) = true
          ∨ stageFails lib (net (log ++ [n.addsMetarsCache]) n.addsTafsCache) = true)) := by
  rcases processURL_cases lib net n.addsMetarsCache log with ⟨e1, h1, f1⟩ | ⟨r1, h1, f1⟩
  · have hm := processMETARs_err lib net _ log e1 (by rw [h1])
    have hu : (n.Update lib net log).1 =
        .ret (none, none, some (.wrap (str "failed to process metars: ")
          (.wrap (str "failed to process metars: ") e1))) := by
      simp only [NWSProvider.Update, hm]
    refine ⟨⟨_, hu⟩, ?_, ?_, ?_⟩
    · intro metars tafs err h
      rw [hu] at h
      simp only [Outcome.ret.injEq, Prod.mk.injEq] at h
      exact ⟨h.1.symm, h.2.1.symm⟩
    · intro m h
      rw [hm] at h
      simp at h
    · exact ⟨fun _ => Or.inl f1, fun _ => ⟨_, hu⟩⟩
  · have hm := processMETARs_ok lib net _ log r1 (by rw [h1])
    rcases processURL_cases lib net n.addsTafsCache (log ++ [n.addsMetarsCache]) with
      ⟨e2, h2, f2⟩ | ⟨r2, h2, f2⟩
    · have ht := processTAFs_err lib net _ _ e2 (by rw [h2])
      have hu : (n.Update lib net log).1 =
          .ret (none, none, some (.wrap (str "failed to process tafs: ")
            (.wrap (str "failed to process tafs: ") e2))) := by
        simp only [NWSProvider.Update, hm, ht]
      refine ⟨⟨_, hu⟩, ?_, ?_, ?_⟩
      · intro metars tafs err h
        rw [hu] at h
        simp only [Outcome.ret.injEq, Prod.mk.injEq] at h
        exact ⟨h.1.symm, h.2.1.symm⟩
      · intro m _ _
        exact ⟨_, hu⟩
      · exact ⟨fun _ => Or.inr f2, fun _ => ⟨_, hu⟩⟩
    · have ht := processTAFs_ok lib net _ _ r2 (by rw [h2])
      have hu : (n.Update lib net log).1 =
          .ret (some (fill METAR.StationID METAR.RawText r1.METARs []),
            some (fill TAF.StationID TAF.RawText r2.TAFs []), none) := by
        simp only [NWSProvider.Update, hm, ht]
      refine ⟨⟨_, hu⟩, ?_, ?_, ?_⟩
      · intro metars tafs err h
        rw [hu] at h
        simp at h
      · intro m _ hf
        rw [f2] at hf
        simp at hf
      · constructor
        · rintro ⟨err, h⟩
          rw [hu] at h
          simp at h
        · rintro (h | h)
          · rw [f1] at h; simp at h
          · rw [f2] at h; simp at h

/-- Witness of C5: the METAR snapshot is served and the TAF snapshot is not found; both maps
are nil. -/
theorem Update_all_or_nothing_witness :
    ∃ err, (exampleProvider.Update (exampleLib uniqueSnapshot [] .null) netTafNotFound []).1
      = .ret (none, none, some err) :=
  (Update_all_or_nothing (exampleLib uniqueSnapshot [] .null) netTafNotFound exampleProvider
    []).2.2.1 _ rfl (by decide)
theorem Update_taf_download_error (lib : StdLib) (net : Network) (n : NWSProvider) (log : Log)
    (cause : GoError)
    (hm : stageFails lib (net log n.addsMetarsCache) = false)
    (ht : (downloadFile net n.addsTafsCache (log ++ [n.addsMetarsCache])).1.2 = some cause) :
    ∃ err, (n.Update lib net log).1 = .ret (none, none, some err)
      ∧ err.Error =
          str "failed to process tafs: failed to process tafs: failed to download METARs: "
            ++ cause.Error := by
  rcases processURL_cases lib net n.addsMetarsCache log with ⟨e1, h1, f1⟩ | ⟨r1, h1, f1⟩
  · rw [hm] at f1; simp at f1
  · have hmm := processMETARs_ok lib net _ log r1 (by rw [h1])
    have hp : (processURL lib net n.addsTafsCache (log ++ [n.addsMetarsCache])).1.2
        = some (.wrap (str "failed to download METARs: ") cause) := by
      unfold processURL
      generalize downloadFile net n.addsTafsCache (log ++ [n.addsMetarsCache]) = d at ht
      obtain ⟨⟨data, derr⟩, log1⟩ := d
      simp only at ht
      subst ht
      rfl
    have htt := processTAFs_err lib net _ _ _ hp
    refine ⟨.wrap (str "failed to process tafs: ") (.wrap (str "failed to process tafs: ")
      (.wrap (str "failed to download METARs: ") cause)),
      by simp only [NWSProvider.Update, hmm, htt], ?_⟩
    simp only [GoError.Error]
    have : str "failed to process tafs: failed to process tafs: failed to download METARs: "
        = str "failed to process tafs: " ++ (str "failed to process tafs: "
          ++ str "failed to download METARs: ") := by decide
    rw [this]
    simp only [List.append_assoc]

/-- C9, the code at the failing input: the METAR snapshot is served and the TAF snapshot
answers `404 Not Found`. The error of `Update` reads `failed to process tafs: failed to
process tafs: failed to download METARs: failed to download file: 404 Not Found`: a failure
of the TAF pipeline whose text names the METARs. -/
theorem taf_failure_names_metars :
    ∃ err, (exampleProvider.Update (exampleLib uniqueSnapshot [] .null) netTafNotFound []).1
        = .ret (none, none, some err)
      ∧ err.Error = str ("failed to process tafs: failed to process tafs: " ++
          "failed to download METARs: failed to download file: 404 Not Found")
      ∧ contains err.Error (str "METARs") = true :=
  ⟨_, rfl, by decide, by decide⟩

/-! ## The service facade -/

/-- C10: the service built by `NewService p` adds no behaviour: from every state of the
provider, `Update`, `GetMETAR s` and `GetTAF s` of the service give exactly the outcome and
the state that the same operation of `p` gives, and on a provider that records its calls
each of them records one call, of the corresponding operation with the same argument. -/
theorem service_adds_no_behaviour {σ : Type} (p : WeatherProvider σ) (s : GoString) (st : σ)
    (calls : List Call) :
    (NewService p).Update st = p.Update st
    ∧ (NewService p).GetMETAR s st = p.GetMETAR s st
    ∧ (NewService p).GetTAF s st = p.GetTAF s st
    ∧ ((NewService (traced p)).Update (st, calls)).2.2 = calls ++ [Call.update]
    ∧ ((NewService (traced p)).GetMETAR s (st, calls)).2.2 = calls ++ [Call.getMETAR s]
    ∧ ((NewService (traced p)).GetTAF s (st, calls)).2.2 = calls ++ [Call.getTAF s] :=
  ⟨rfl, rfl, rfl, rfl, rfl, rfl⟩

/-! ## Single-station lookup: `GetMETAR` and `GetTAF` -/

theorem GetMETAR_of_body (lib : StdLib) (net : Network) (n : NWSProvider)
    (station : GoString) (log : Log) (uri : GoString) (resp : Response) (body : Bytes)
    (huri : n.getURL lib (str "metar") station = (uri, none))
    (hnet : net log uri = .ok resp) (hcode : resp.StatusCode = 200)
    (hbody : resp.Body = (body, none)) :
    n.GetMETAR lib net station log =
      (match lib.jsonUnmarshalMETARs body with
        | (_, some err) => .ret ([], some (.wrap (str "failed to unmarshal METAR: ") err))
        | ([], none) => .panic indexOutOfRange
        | (first :: _, none) => .ret (first.Observation, none), log ++ [uri]) := by
  simp only [NWSProvider.GetMETAR, huri, downloadFile, hnet, hcode, StatusOK, ne_eq,
    not_true_eq_false, if_false, hbody, Option.getD_some]
  split <;> simp_all

theorem GetTAF_of_body (lib : StdLib) (net : Network) (n : NWSProvider)
    (station : GoString) (log : Log) (uri : GoString) (resp : Response) (body : Bytes)
    (huri : n.getURL lib (str "taf") station = (uri, none))
    (hnet : net log uri = .ok resp) (hcode : resp.StatusCode = 200)
    (hbody : resp.Body = (body, none)) :
    n.GetTAF lib net station log =
      (match lib.jsonUnmarshalTAFs body with
        | (_, some err) => .ret ([], some (.wrap (str "failed to unmarshal TAF: ") err))
        | ([], none) => .panic indexOutOfRange
        | (first :: _, none) => .ret (first.Forecast, none), log ++ [uri]) := by
  simp only [NWSProvider.GetTAF, huri, downloadFile, hnet, hcode, StatusOK, ne_eq,
    not_true_eq_false, if_false, hbody, Option.getD_some]
  split <;> simp_all
theorem decodeFields_err (struct name1 name2 : GoString) (members : List (GoString × JSON))
    (f1 f2 : GoString) (err : Option GoError) :
    (decodeFields struct name1 name2 members ((f1, f2), err)).2.isSome
      = (err.isSome || members.any (misfitMember name1 name2)) := by
  induction members generalizing f1 f2 err with
  | nil => simp [decodeFields]
  | cons kv rest ih =>
    obtain ⟨key, value⟩ := kv
    unfold decodeFields
    by_cases h1 : key = name1 ∨ (key ≠ name2 ∧ foldName key = foldName name1)
    · have hn : (namesField name1 key || namesField name2 key) = true := by
        simp only [namesField, Bool.or_eq_true, decide_eq_true_eq]
        rcases h1 with h | ⟨_, h⟩
        · exact Or.inl (Or.inl h)
        · exact Or.inl (Or.inr h)
      simp only [h1, if_true, List.any_cons, misfitMember, hn, Bool.true_and]
      cases value <;> cases err <;> simp [ih, JSON.fitsString]
    · by_cases h2 : key = name2 ∨ foldName key = foldName name2
      · have hn : (namesField name1 key || namesField name2 key) = true := by
          simp only [namesField, Bool.or_eq_true, decide_eq_true_eq]
          exact Or.inr h2
        simp only [h1, if_false, h2, if_true, List.any_cons, misfitMember, hn, Bool.true_and]
        cases value <;> cases err <;> simp [ih, JSON.fitsString]
      · have hn : (namesField name1 key || namesField name2 key) = false := by
          simp only [namesField, Bool.or_eq_false_iff, decide_eq_false_iff_not]
          refine ⟨?_, h2⟩
          rintro (h | h)
          · exact h1 (Or.inl h)
          · by_cases h3 : key = name2
            · exact h2 (Or.inl h3)
            · exact h1 (Or.inr ⟨h3, h⟩)
        simp only [h1, if_false, h2, List.any_cons, misfitMember, hn, Bool.false_and,
          Bool.false_or, ih]

theorem decodeElems_err (struct goType name1 name2 : GoString) (elems : List JSON)
    (err : Option GoError) :
    (decodeElems struct goType name1 name2 elems err).2.isSome
      = (err.isSome || elems.any (misfitElem name1 name2)) := by
  induction elems generalizing err with
  | nil => simp [decodeElems]
  | cons e rest ih =>
    cases e <;> cases err <;>
      simp [decodeElems, ih, misfitElem, decodeFields_err, Bool.or_assoc]

theorem decodeSlice_err (struct goType name1 name2 : GoString) (v : JSON) :
    (decodeSlice struct goType name1 name2 v).2.isSome = misfit name1 name2 v := by
  cases v <;> simp [decodeSlice, misfit, decodeElems_err]
theorem GetMETAR_empty_array (lib : StdLib) (net : Network) (n : NWSProvider)
    (station : GoString) (log : Log) (uri : GoString) (resp : Response) (body : Bytes)
    (huri : n.getURL lib (str "metar") station = (uri, none))
    (hnet : net log uri = .ok resp) (hcode : resp.StatusCode = 200)
    (hbody : resp.Body = (body, none)) (hjson : lib.jsonSyntax body = .ok (.array [])) :
    (n.GetMETAR lib net station log).1 = .panic indexOutOfRange := by
  rw [GetMETAR_of_body lib net n station log uri resp body huri hnet hcode hbody]
  simp [StdLib.jsonUnmarshalMETARs, hjson, decodeSlice, decodeElems]

theorem GetTAF_empty_array (lib : StdLib) (net : Network) (n : NWSProvider)
    (station : GoString) (log : Log) (uri : GoString) (resp : Response) (body : Bytes)
    (huri : n.getURL lib (str "taf") station = (uri, none))
    (hnet : net log uri = .ok resp) (hcode : resp.StatusCode = 200)
    (hbody : resp.Body = (body, none)) (hjson : lib.jsonSyntax body = .ok (.array [])) :
    (n.GetTAF lib net station log).1 = .panic indexOutOfRange := by
  rw [GetTAF_of_body lib net n station log uri resp body huri hnet hcode hbody]
  simp [StdLib.jsonUnmarshalTAFs, hjson, decodeSlice, decodeElems]

/-- C1, the code at the failing input: the single-station endpoint answers 200 with the body
`[]`. `GetMETAR` and `GetTAF` do not return an error: both panic with an index out of range
on element 0. -/
theorem empty_array_index_panics :
    (exampleProvider.GetMETAR (exampleLib uniqueSnapshot emptyArrayText (.array []))
        (netServing emptyArrayText) (str "PAFA") []).1 = .panic indexOutOfRange
    ∧ (exampleProvider.GetTAF (exampleLib uniqueSnapshot emptyArrayText (.array []))
        (netServing emptyArrayText) (str "PAFA") []).1 = .panic indexOutOfRange :=
  ⟨GetMETAR_empty_array _ _ _ _ _ (str "http://h/metar?format=json&ids=PAFA") _ emptyArrayText
      (by decide) rfl rfl rfl rfl,
   GetTAF_empty_array _ _ _ _ _ (str "http://h/taf?format=json&ids=PAFA") _ emptyArrayText
      (by decide) rfl rfl rfl rfl⟩


theorem decodeFields_second (struct name1 name2 : GoString) (members : List (GoString × JSON))
    (f1 f2 : GoString) (err : Option GoError)
    (h : ∀ m ∈ members, namesField name2 m.1 = false) :
    (decodeFields struct name1 name2 members ((f1, f2), err)).1.2 = f2 := by
  induction members generalizing f1 f2 err with
  | nil => simp [decodeFields]
  | cons kv rest ih =>
    obtain ⟨key, value⟩ := kv
    have hrest : ∀ m ∈ rest, namesField name2 m.1 = false :=
      fun m hm => h m (List.mem_cons_of_mem _ hm)
    have hkey : ¬ (key = name2 ∨ foldName key = foldName name2) := by
      have := h (key, value) (List.mem_cons_self _ _)
      simpa [namesField] using this
    unfold decodeFields
    by_cases h1 : key = name1 ∨ (key ≠ name2 ∧ foldName key = foldName name1)
    · simp only [h1, if_true]
      cases value <;> simp only [ih _ _ _ hrest]
    · simp only [h1, if_false, hkey, ih _ _ _ hrest]

theorem decodeSlice_first_lacking (struct goType name1 name2 : GoString)
    (members : List (GoString × JSON)) (rest : List JSON)
    (hfit : misfit name1 name2 (.array (.object members :: rest)) = false)
    (hlack : ∀ m ∈ members, namesField name2 m.1 = false) :
    ∃ f1 tail, decodeSlice struct goType name1 name2 (.array (.object members :: rest))
      = ((f1, []) :: tail, none) := by
  have herr := decodeSlice_err struct goType name1 name2 (.array (.object members :: rest))
  rw [hfit] at herr
  have hnone : (decodeSlice struct goType name1 name2 (.array (.object members :: rest))).2
      = none := by
    cases h : (decodeSlice struct goType name1 name2 (.array (.object members :: rest))).2 with
    | none => rfl
    | some e => rw [h] at herr; simp at herr
  have hsec := decodeFields_second struct name1 name2 members [] [] none hlack
  refine ⟨(decodeFields struct name1 name2 members (([], []), none)).1.1,
    (decodeElems struct goType name1 name2 rest
      (decodeFields struct name1 name2 members (([], []), none)).2).1, ?_⟩
  simp only [decodeSlice, decodeElems] at hnone ⊢
  rw [Prod.mk.injEq]
  refine ⟨?_, hnone⟩
  rw [List.cons.injEq]
  exact ⟨Prod.ext rfl hsec, rfl⟩

theorem getLastD_cons {α : Type} (a d : α) (l : List α) :
    ((a :: l).getLast?).getD d = (l.getLast?).getD a := by
  rw [List.getLast?_cons]
  rfl

theorem decodeFields_text (struct name1 name2 : GoString) (hdis : foldName name1 ≠ foldName name2)
    (members : List (GoString × JSON)) (f1 f2 : GoString) (err : Option GoError) :
    (decodeFields struct name1 name2 members ((f1, f2), err)).1.2
      = ((members.filterMap
          (fun m => if namesField name2 m.1 then m.2.string? else none)).getLast?).getD f2 := by
  induction members generalizing f1 f2 err with
  | nil => simp [decodeFields]
  | cons kv rest ih =>
    obtain ⟨key, value⟩ := kv
    unfold decodeFields
    by_cases h1 : key = name1 ∨ (key ≠ name2 ∧ foldName key = foldName name1)
    · have hn2 : namesField name2 key = false := by
        simp only [namesField, decide_eq_false_iff_not, not_or]
        rcases h1 with h | ⟨h, h2⟩
        · subst h
          exact ⟨fun h3 => hdis (by rw [h3]), hdis⟩
        · exact ⟨h, fun h3 => hdis (h2.symm.trans h3)⟩
      simp only [h1, if_true, List.filterMap_cons, hn2, Bool.false_eq_true, if_false]
      cases value <;> simp only [ih]
    · by_cases h2 : key = name2 ∨ foldName key = foldName name2
      · have hn2 : namesField name2 key = true := by
          simpa [namesField] using h2
        simp only [h1, if_false, h2, if_true, List.filterMap_cons, hn2]
        cases value <;> simp only [ih, JSON.string?, getLastD_cons]
      · have hn2 : namesField name2 key = false := by
          simpa [namesField] using h2
        simp only [h1, if_false, h2, List.filterMap_cons, hn2, Bool.false_eq_true, ih]

theorem decodeSlice_first_text (struct goType name1 name2 : GoString)
    (hdis : foldName name1 ≠ foldName name2) (first : JSON) (rest : List JSON)
    (hfit : misfit name1 name2 (.array (first :: rest)) = false) :
    ∃ f1 tail, decodeSlice struct goType name1 name2 (.array (first :: rest))
      = ((f1, memberText name2 first) :: tail, none) := by
  have herr := decodeSlice_err struct goType name1 name2 (.array (first :: rest))
  rw [hfit] at herr
  have hnone : (decodeSlice struct goType name1 name2 (.array (first :: rest))).2 = none := by
    cases h : (decodeSlice struct goType name1 name2 (.array (first :: rest))).2 with
    | none => rfl
    | some e => rw [h] at herr; simp at herr
  have hfirst : misfitElem name1 name2 first = false := by
    simp only [misfit, List.any_cons, Bool.or_eq_false_iff] at hfit
    exact hfit.1
  cases first with
  | object members =>
    have hsec := decodeFields_text struct name1 name2 hdis members [] [] none
    refine ⟨(decodeFields struct name1 name2 members (([], []), none)).1.1,
      (decodeElems struct goType name1 name2 rest
        (decodeFields struct name1 name2 members (([], []), none)).2).1, ?_⟩
    simp only [decodeSlice, decodeElems] at hnone ⊢
    rw [Prod.mk.injEq]
    refine ⟨?_, hnone⟩
    rw [List.cons.injEq]
    exact ⟨Prod.ext rfl hsec, rfl⟩
  | null =>
    refine ⟨[], (decodeElems struct goType name1 name2 rest none).1, ?_⟩
    simp only [decodeSlice, decodeElems] at hnone ⊢
    rw [Prod.mk.injEq]
    exact ⟨rfl, hnone⟩
  | bool b => simp [misfitElem] at hfirst
  | number lit => simp [misfitElem] at hfirst
  | string s => simp [misfitElem] at hfirst
  | array elems => simp [misfitElem] at hfirst

/-- C4, as the code has it: on a 200 response whose body is a JSON array with a first element
and fits (every element an object or `null`, every member named `icaoId` or `rawOb`, for
`GetTAF` `rawTAF`, a string or `null`), `GetMETAR` returns exactly the `rawOb` text of the
first element and a nil error, and `GetTAF` exactly its `rawTAF` text and a nil error,
whatever the later elements hold, whatever the `icaoId` of the element and whatever station
was asked for. -/
theorem first_element_returned (lib : StdLib) (net : Network) (n : NWSProvider)
    (station : GoString) (log : Log) (uri : GoString) (resp : Response) (body : Bytes)
    (first : JSON) (rest : List JSON)
    (hnet : net log uri = .ok resp) (hcode : resp.StatusCode = 200)
    (hbody : resp.Body = (body, none))
    (hjson : lib.jsonSyntax body = .ok (.array (first :: rest))) :
    (n.getURL lib (str "metar") station = (uri, none) →
      misfit (str "icaoId") (str "rawOb") (.array (first :: rest)) = false →
      (n.GetMETAR lib net station log).1 = .ret (memberText (str "rawOb") first, none))
    ∧ (n.getURL lib (str "taf") station = (uri, none) →
      misfit (str "icaoId") (str "rawTAF") (.array (first :: rest)) = false →
      (n.GetTAF lib net station log).1 = .ret (memberText (str "rawTAF") first, none)) := by
  constructor
  · intro huri hfit
    rw [GetMETAR_of_body lib net n station log uri resp body huri hnet hcode hbody]
    obtain ⟨f1, tail, hd⟩ := decodeSlice_first_text (str "dataAPIMETAR")
      (str "nws.dataAPIMETAR") (str "icaoId") (str "rawOb") (by decide) first rest hfit
    simp [StdLib.jsonUnmarshalMETARs, hjson, hd]
  · intro huri hfit
    rw [GetTAF_of_body lib net n station log uri resp body huri hnet hcode hbody]
    obtain ⟨f1, tail, hd⟩ := decodeSlice_first_text (str "dataAPITAF")
      (str "nws.dataAPITAF") (str "icaoId") (str "rawTAF") (by decide) first rest hfit
    simp [StdLib.jsonUnmarshalTAFs, hjson, hd]

/-- Witness of C4 as the code has it: the one-element arrays of the tests, for station `PAFA`,
and an array whose first element holds `rawOb` twice, followed by an element of another
station and a `null`, asked for station `PANC`. -/
theorem first_element_returned_witness :
    (exampleProvider.GetMETAR (exampleLib uniqueSnapshot metarText metarJSON)
        (netServing metarText) (str "PAFA") []).1 = .ret (str "PAFA 061453Z", none)
    ∧ (exampleProvider.GetTAF (exampleLib uniqueSnapshot tafText tafJSON)
        (netServing tafText) (str "PAFA") []).1 = .ret (str "PAFA 061120Z", none)
    ∧ (exampleProvider.GetMETAR (exampleLib uniqueSnapshot twoTextsText twoTextsJSON)
        (netServing twoTextsText) (str "PANC") []).1 = .ret (str "Y", none) :=
  ⟨(first_element_returned (exampleLib uniqueSnapshot metarText metarJSON)
      (netServing metarText) exampleProvider (str "PAFA") []
      (str "http://h/metar?format=json&ids=PAFA") _ metarText _ _ rfl rfl rfl rfl).1
      (by decide) (by decide),
   (first_element_returned (exampleLib uniqueSnapshot tafText tafJSON)
      (netServing tafText) exampleProvider (str "PAFA") []
      (str "http://h/taf?format=json&ids=PAFA") _ tafText _ _ rfl rfl rfl rfl).2
      (by decide) (by decide),
   (first_element_returned (exampleLib uniqueSnapshot twoTextsText twoTextsJSON)
      (netServing twoTextsText) exampleProvider (str "PANC") []
      (str "http://h/metar?format=json&ids=PANC") _ twoTextsText _ _ rfl rfl rfl rfl).1
      (by decide) (by decide)⟩

/-- C4 as stated fails: on the body `[{"icaoId":"PAFA","rawOb":"X","rawTAF":"X"},5]`, a
non-empty array whose later element is a number, and on the body
`[{"icaoId":5,"rawOb":"X","rawTAF":"X"}]`, whose element has a number as `icaoId`,
`GetMETAR` and `GetTAF` return the empty string and a parse error, not the text `X` with a
nil error. -/
theorem later_element_and_icaoId_matter :
    (exampleProvider.GetMETAR (exampleLib uniqueSnapshot laterNumberText laterNumberJSON)
        (netServing laterNumberText) (str "PAFA") []).1
      = .ret ([], some (.wrap (str "failed to unmarshal METAR: ")
          (unmarshalTypeError (str "number") (str "nws.dataAPIMETAR"))))
    ∧ (exampleProvider.GetTAF (exampleLib uniqueSnapshot laterNumberText laterNumberJSON)
        (netServing laterNumberText) (str "PAFA") []).1
      = .ret ([], some (.wrap (str "failed to unmarshal TAF: ")
          (unmarshalTypeError (str "number") (str "nws.dataAPITAF"))))
    ∧ (exampleProvider.GetMETAR (exampleLib uniqueSnapshot numberIdText numberIdJSON)
        (netServing numberIdText) (str "PAFA") []).1
      = .ret ([], some (.wrap (str "failed to unmarshal METAR: ")
          (unmarshalFieldError (str "number") (str "dataAPIMETAR") (str "icaoId")
            (str "string"))))
    ∧ (exampleProvider.GetTAF (exampleLib uniqueSnapshot numberIdText numberIdJSON)
        (netServing numberIdText) (str "PAFA") []).1
      = .ret ([], some (.wrap (str "failed to unmarshal TAF: ")
          (unmarshalFieldError (str "number") (str "dataAPITAF") (str "icaoId")
            (str "string")))) := by
  refine ⟨?_, ?_, ?_, ?_⟩ <;> decide

/-- C8, as the code has it: on a 200 response, `GetMETAR` and `GetTAF` return the empty string
and a non-nil `failed to unmarshal` error when the body is malformed JSON and when its value
does not fit: it is neither an array nor `null`, or an element is neither an object nor
`null`, or a member named `icaoId` or `rawOb` (`rawTAF`) is neither a string nor `null`.
A first element that only lacks the raw-text member is no error: the result is the empty
string and a nil error. -/
theorem unmarshal_errors (lib : StdLib) (net : Network) (n : NWSProvider)
    (station : GoString) (log : Log) (uri : GoString) (resp : Response) (body : Bytes)
    (hnet : net log uri = .ok resp) (hcode : resp.StatusCode = 200)
    (hbody : resp.Body = (body, none)) :
    (n.getURL lib (str "metar") station = (uri, none) →
      (∀ e, lib.jsonSyntax body = .error e →
        (n.GetMETAR lib net station log).1
          = .ret ([], some (.wrap (str "failed to unmarshal METAR: ") e)))
      ∧ (∀ v, lib.jsonSyntax body = .ok v → misfit (str "icaoId") (str "rawOb") v = true →
        ∃ e, (n.GetMETAR lib net station log).1
          = .ret ([], some (.wrap (str "failed to unmarshal METAR: ") e)))
      ∧ (∀ members rest, lib.jsonSyntax body = .ok (.array (.object members :: rest)) →
        misfit (str "icaoId") (str "rawOb") (.array (.object members :: rest)) = false →
        (∀ m ∈ members, namesField (str "rawOb") m.1 = false) →
        (n.GetMETAR lib net station log).1 = .ret ([], none)))
    ∧ (n.getURL lib (str "taf") station = (uri, none) →
      (∀ e, lib.jsonSyntax body = .error e →
        (n.GetTAF lib net station log).1
          = .ret ([], some (.wrap (str "failed to unmarshal TAF: ") e)))
      ∧ (∀ v, lib.jsonSyntax body = .ok v → misfit (str "icaoId") (str "rawTAF") v = true →
        ∃ e, (n.GetTAF lib net station log).1
          = .ret ([], some (.wrap (str "failed to unmarshal TAF: ") e)))
      ∧ (∀ members rest, lib.jsonSyntax body = .ok (.array (.object members :: rest)) →
        misfit (str "icaoId") (str "rawTAF") (.array (.object members :: rest)) = false →
        (∀ m ∈ members, namesField (str "rawTAF") m.1 = false) →
        (n.GetTAF lib net station log).1 = .ret ([], none))) := by
  constructor
  · intro huri
    rw [GetMETAR_of_body lib net n station log uri resp body huri hnet hcode hbody]
    refine ⟨?_, ?_, ?_⟩
    · intro e hjson
      simp [StdLib.jsonUnmarshalMETARs, hjson]
    · intro v hjson hmis
      have herr := decodeSlice_err (str "dataAPIMETAR") (str "nws.dataAPIMETAR")
        (str "icaoId") (str "rawOb") v
      rw [hmis] at herr
      obtain ⟨e, he⟩ := Option.isSome_iff_exists.1 herr
      refine ⟨e, ?_⟩
      simp [StdLib.jsonUnmarshalMETARs, hjson, he]
    · intro members rest hjson hfit hlack
      obtain ⟨f1, tail, hd⟩ := decodeSlice_first_lacking (str "dataAPIMETAR")
        (str "nws.dataAPIMETAR") (str "icaoId") (str "rawOb") members rest hfit hlack
      simp [StdLib.jsonUnmarshalMETARs, hjson, hd]
  · intro huri
    rw [GetTAF_of_body lib net n station log uri resp body huri hnet hcode hbody]
    refine ⟨?_, ?_, ?_⟩
    · intro e hjson
      simp [StdLib.jsonUnmarshalTAFs, hjson]
    · intro v hjson hmis
      have herr := decodeSlice_err (str "dataAPITAF") (str "nws.dataAPITAF")
        (str "icaoId") (str "rawTAF") v
      rw [hmis] at herr
      obtain ⟨e, he⟩ := Option.isSome_iff_exists.1 herr
      refine ⟨e, ?_⟩
      simp [StdLib.jsonUnmarshalTAFs, hjson, he]
    · intro members rest hjson hfit hlack
      obtain ⟨f1, tail, hd⟩ := decodeSlice_first_lacking (str "dataAPITAF")
        (str "nws.dataAPITAF") (str "icaoId") (str "rawTAF") members rest hfit hlack
      simp [StdLib.jsonUnmarshalTAFs, hjson, hd]

/-- Witness of C8 as the code has it: the body `[{"rawOb":5,"rawTAF":5}]` is a parse error
for both operations. -/
theorem unmarshal_errors_witness :
    (∃ e, (exampleProvider.GetMETAR (exampleLib uniqueSnapshot numberText numberJSON)
        (netServing numberText) (str "PAFA") []).1
          = .ret ([], some (.wrap (str "failed to unmarshal METAR: ") e)))
    ∧ (∃ e, (exampleProvider.GetTAF (exampleLib uniqueSnapshot numberText numberJSON)
        (netServing numberText) (str "PAFA") []).1
          = .ret ([], some (.wrap (str "failed to unmarshal TAF: ") e))) :=
  ⟨((unmarshal_errors (exampleLib uniqueSnapshot numberText numberJSON)
      (netServing numberText) exampleProvider (str "PAFA") []
      (str "http://h/metar?format=json&ids=PAFA") _ numberText rfl rfl rfl).1
      (by decide)).2.1 numberJSON rfl (by decide),
   ((unmarshal_errors (exampleLib uniqueSnapshot numberText numberJSON)
      (netServing numberText) exampleProvider (str "PAFA") []
      (str "http://h/taf?format=json&ids=PAFA") _ numberText rfl rfl rfl).2
      (by decide)).2.1 numberJSON rfl (by decide)⟩

/-- C8 as stated fails: on the body `[{}]`, whose first element lacks `rawOb` and `rawTAF`,
`GetMETAR` and `GetTAF` return the empty string with a nil error, not a parse error. -/
theorem missing_field_is_no_error :
    (exampleProvider.GetMETAR (exampleLib uniqueSnapshot emptyObjectText emptyObjectJSON)
        (netServing emptyObjectText) (str "PAFA") []).1 = .ret ([], none)
    ∧ (exampleProvider.GetTAF (exampleLib uniqueSnapshot emptyObjectText emptyObjectJSON)
        (netServing emptyObjectText) (str "PAFA") []).1 = .ret ([], none) := by
  constructor <;> decide
/-! ## The URL builder `getURL` -/

theorem cut_of_not_mem (s : GoString) (sep : Byte) (h : sep ∉ s) : cut s sep = (s, [], false) := by
  have hall : ∀ x ∈ s, (x != sep) = true := by
    intro x hx
    have : x ≠ sep := fun h2 => h (h2 ▸ hx)
    simpa using this
  have hspan : s.span (fun c => c != sep) = (s, []) := by
    rw [List.span_eq_take_drop, List.takeWhile_eq_self_iff.2 hall,
      List.dropWhile_eq_nil_iff.2 hall]
  simp only [cut, hspan]

theorem getSchemeLoop_rest (raw : GoString) (i : Nat) (l scheme rest : GoString)
    (h : getSchemeLoop raw i l = .ok (scheme, rest)) : rest = raw ∨ rest <:+ l := by
  induction l generalizing i with
  | nil =>
    simp only [getSchemeLoop, Except.ok.injEq, Prod.mk.injEq] at h
    exact Or.inl h.2.symm
  | cons c tl ih =>
    unfold getSchemeLoop at h
    split at h
    · rcases ih _ h with h1 | h1
      · exact Or.inl h1
      · exact Or.inr (h1.trans (List.suffix_cons _ _))
    · split at h
      · split at h
        · simp only [Except.ok.injEq, Prod.mk.injEq] at h
          exact Or.inl h.2.symm
        · rcases ih _ h with h1 | h1
          · exact Or.inl h1
          · exact Or.inr (h1.trans (List.suffix_cons _ _))
      · split at h
        · split at h
          · simp at h
          · simp only [Except.ok.injEq, Prod.mk.injEq] at h
            exact Or.inr (h.2 ▸ List.suffix_cons _ _)
        · simp only [Except.ok.injEq, Prod.mk.injEq] at h
          exact Or.inl h.2.symm

theorem getScheme_rest (raw scheme rest : GoString) (h : getScheme raw = .ok (scheme, rest)) :
    ∀ c ∈ rest, c ∈ raw := by
  intro c hc
  rcases getSchemeLoop_rest raw 0 raw scheme rest h with h1 | h1
  · exact h1 ▸ hc
  · exact h1.subset hc

theorem setPath_plain (quote : GoString → GoString) (u v : URL) (p : GoString)
    (hu : u.plain) (h : URL.setPath quote u p = .ok v) : v.plain := by
  unfold URL.setPath at h
  split at h
  · simp at h
  · split at h <;>
    · simp only [Except.ok.injEq] at h
      subst h
      exact hu

theorem parse_plain (quote : GoString → GoString) (raw : GoString) (viaRequest : Bool) (u : URL)
    (hq : (63 : Byte) ∉ raw) (h : parse quote raw viaRequest = .ok u) : u.plain := by
  unfold parse at h
  split at h
  · simp at h
  split at h
  · simp at h
  split at h
  · simp only [Except.ok.injEq] at h
    subst h
    exact ⟨rfl, rfl, rfl, rfl⟩
  split at h
  · simp at h
  rename_i scheme rest0 hs
  have hrest : (63 : Byte) ∉ rest0 := fun h2 => hq (getScheme_rest raw scheme rest0 hs 63 h2)
  have hlast : ¬ (rest0.getLast? = some 63 ∧ rest0.count 63 = 1) := by
    rintro ⟨h2, _⟩
    exact hrest (List.mem_of_getLast?_eq_some h2)
  simp only [hlast, if_false, cut_of_not_mem rest0 63 hrest] at h
  split at h
  · simp only [Except.ok.injEq] at h
    subst h
    exact ⟨rfl, rfl, rfl, rfl⟩
  split at h
  · simp at h
  split at h
  · simp at h
  split at h
  · split at h
    · simp at h
    · exact setPath_plain quote _ u _ ⟨rfl, rfl, rfl, rfl⟩ h
  split at h
  · exact setPath_plain quote _ u _ ⟨rfl, rfl, rfl, rfl⟩ h
  · exact setPath_plain quote _ u _ ⟨rfl, rfl, rfl, rfl⟩ h

theorem Parse_plain (quote : GoString → GoString) (raw : GoString) (u : URL)
    (hq : (63 : Byte) ∉ raw) (hf : (35 : Byte) ∉ raw) (h : Parse quote raw = .ok u) :
    u.plain := by
  unfold Parse at h
  rw [cut_of_not_mem raw 35 hf] at h
  simp only at h
  split at h
  · simp at h
  · rename_i url hp
    simp only [if_true, Except.ok.injEq] at h
    subst h
    exact parse_plain quote raw false _ hq hp
set_option maxRecDepth 100000 in
theorem upperhex_ishex : ∀ c : Byte,
    (ishex (upperhex (c.val / 16)) && ishex (upperhex (c.val % 16))) = true := by
  decide!

set_option maxRecDepth 100000 in
theorem upperhex_unhex : ∀ c : Byte,
    (Fin.ofNat (unhex (upperhex (c.val / 16)) * 16 + unhex (upperhex (c.val % 16))) : Byte)
      = c := by
  decide!

set_option maxRecDepth 100000 in
theorem unescaped_query_byte : ∀ c : Byte, shouldEscape c .encodeQueryComponent = false →
    c ≠ 37 ∧ c ≠ 43 ∧ c ≠ 38 ∧ c ≠ 59 ∧ c ≠ 61 := by
  decide!

set_option maxRecDepth 100000 in
theorem upperhex_plain : ∀ c : Byte,
    (upperhex (c.val / 16) ≠ 38 ∧ upperhex (c.val / 16) ≠ 59 ∧ upperhex (c.val / 16) ≠ 61)
    ∧ (upperhex (c.val % 16) ≠ 38 ∧ upperhex (c.val % 16) ≠ 59 ∧ upperhex (c.val % 16) ≠ 61) := by
  decide!

theorem unescapeCheck_escapeByte (quote : GoString → GoString) (c : Byte) (r : GoString) :
    unescapeCheck quote .encodeQueryComponent (escapeByte .encodeQueryComponent c ++ r)
      = unescapeCheck quote .encodeQueryComponent r := by
  unfold escapeByte
  by_cases h32 : c = 32
  · subst h32
    conv_lhs => rw [unescapeCheck.eq_def]
    simp
  · simp only [h32, false_and, if_false]
    by_cases hesc : shouldEscape c .encodeQueryComponent = true
    · have hx := upperhex_ishex c
      simp only [hesc, if_true, List.cons_append, List.nil_append]
      conv_lhs => rw [unescapeCheck.eq_def]
      simp [hx]
    · have hesc2 : shouldEscape c .encodeQueryComponent = false := by simpa using hesc
      obtain ⟨h37, h43, _⟩ := unescaped_query_byte c hesc2
      simp only [hesc2, Bool.false_eq_true, if_false, List.cons_append, List.nil_append]
      conv_lhs => rw [unescapeCheck.eq_def]
      simp [h37, h43]

theorem unescapeDecode_escapeByte (c : Byte) (r : GoString) :
    unescapeDecode .encodeQueryComponent (escapeByte .encodeQueryComponent c ++ r)
      = c :: unescapeDecode .encodeQueryComponent r := by
  unfold escapeByte
  by_cases h32 : c = 32
  · subst h32
    conv_lhs => rw [unescapeDecode.eq_def]
    simp
  · simp only [h32, false_and, if_false]
    by_cases hesc : shouldEscape c .encodeQueryComponent = true
    · simp only [hesc, if_true, List.cons_append, List.nil_append]
      conv_lhs => rw [unescapeDecode.eq_def]
      simp [upperhex_unhex c]
    · have hesc2 : shouldEscape c .encodeQueryComponent = false := by simpa using hesc
      obtain ⟨h37, h43, _⟩ := unescaped_query_byte c hesc2
      simp only [hesc2, Bool.false_eq_true, if_false, List.cons_append, List.nil_append]
      conv_lhs => rw [unescapeDecode.eq_def]
      simp [h37, h43]

theorem unescapeCheck_escape (quote : GoString → GoString) (s : GoString) :
    unescapeCheck quote .encodeQueryComponent (escape s .encodeQueryComponent) = none := by
  induction s with
  | nil => rfl
  | cons c rest ih =>
    simp only [escape, List.flatMap_cons] at ih ⊢
    rw [unescapeCheck_escapeByte, ih]

theorem unescapeDecode_escape (s : GoString) :
    unescapeDecode .encodeQueryComponent (escape s .encodeQueryComponent) = s := by
  induction s with
  | nil => rfl
  | cons c rest ih =>
    simp only [escape, List.flatMap_cons] at ih ⊢
    rw [unescapeDecode_escapeByte, ih]

theorem QueryUnescape_QueryEscape (quote : GoString → GoString) (s : GoString) :
    QueryUnescape quote (QueryEscape s) = .ok s := by
  simp only [QueryUnescape, QueryEscape, unescape, unescapeCheck_escape, unescapeDecode_escape]

theorem QueryEscape_plain (s : GoString) :
    ∀ x ∈ QueryEscape s, x ≠ 38 ∧ x ≠ 59 ∧ x ≠ 61 := by
  intro x hx
  simp only [QueryEscape, escape, List.mem_flatMap] at hx
  obtain ⟨c, _, hxc⟩ := hx
  unfold escapeByte at hxc
  split at hxc
  · simp only [List.mem_singleton] at hxc
    subst hxc
    decide
  · split at hxc
    · simp only [List.mem_cons] at hxc
      rcases hxc with h | h
      · subst h; decide
      · simp only [List.mem_cons, List.mem_singleton, List.not_mem_nil, or_false] at h
        rcases h with h | h
        · subst h; exact (upperhex_plain c).1
        · subst h; exact (upperhex_plain c).2
    · rename_i hesc
      simp only [List.mem_singleton] at hxc
      subst hxc
      have := unescaped_query_byte x (by simpa using hesc)
      exact ⟨this.2.2.1, this.2.2.2.1, this.2.2.2.2⟩
theorem ParseQuery_empty (quote : GoString → GoString) : ParseQuery quote [] = ([], none) := by
  simp [ParseQuery, parseQueryStep]

theorem Encode_station_query (id : GoString) :
    Values.Encode (Values.Set (Values.Set [] (str "ids") id) (str "format") (str "json"))
      = str "format=json&ids=" ++ QueryEscape id := by
  have hne : ¬ (str "ids" = str "format") := by decide
  have hv : Values.Set (Values.Set [] (str "ids") id) (str "format") (str "json")
      = [(str "ids", [id]), (str "format", [str "json"])] := by
    simp only [Values.Set, Values.put, hne, if_false]
  have hs : ([str "ids", str "format"] : List GoString).insertionSort strLE
      = [str "format", str "ids"] := by decide
  have h1 : QueryEscape (str "format") ++ [61] ++ QueryEscape (str "json") ++ str "&"
      ++ QueryEscape (str "ids") ++ [61] = str "format=json&ids=" := by decide
  rw [hv]
  simp only [Values.Encode, List.map_cons, List.map_nil, hs, List.flatMap_cons, List.flatMap_nil,
    Values.get, hne, if_false, if_true, List.append_nil, List.singleton_append]
  rw [← h1]
  simp [List.intercalate]

theorem String_with_query (quote : GoString → GoString) (u : URL) (q : GoString)
    (hu : u.plain) (hq : q ≠ []) :
    URL.String quote { u with RawQuery := q } = URL.String quote u ++ [63] ++ q := by
  obtain ⟨h1, h2, h3, _⟩ := hu
  have hhead : URL.stringHead quote { u with RawQuery := q } = URL.stringHead quote u := rfl
  rw [URL.String, URL.String, hhead]
  simp [h1, h2, h3, hq]
theorem cut_append (a b : GoString) (sep : Byte) (h : sep ∉ a) :
    cut (a ++ sep :: b) sep = (a, b, true) := by
  have hspan : (a ++ sep :: b).span (fun c => c != sep) = (a, sep :: b) := by
    induction a with
    | nil => simp [List.span_eq_take_drop]
    | cons c rest ih =>
      simp only [List.mem_cons, not_or] at h
      have hc : (c != sep) = true := by simpa using fun h2 => h.1 h2.symm
      have := ih h.2
      simp only [List.span_eq_take_drop, Prod.mk.injEq] at this ⊢
      simp [List.takeWhile_cons, List.dropWhile_cons, hc, this.1, this.2]
  simp only [cut, hspan]

theorem Query_station_ids (quote : GoString → GoString) (id : GoString) :
    Values.get (URL.Query quote { RawQuery := str "format=json&ids=" ++ QueryEscape id })
      (str "ids") = [id] := by
  have hplain := QueryEscape_plain id
  have h38 : (38 : Byte) ∉ str "ids=" ++ QueryEscape id := by
    intro h
    rcases List.mem_append.1 h with h | h
    · revert h; decide
    · exact (hplain 38 h).1 rfl
  have h59 : (59 : Byte) ∉ str "ids=" ++ QueryEscape id := by
    intro h
    rcases List.mem_append.1 h with h | h
    · revert h; decide
    · exact (hplain 59 h).2.1 rfl
  have htext : str "format=json&ids=" ++ QueryEscape id
      = [38].intercalate [str "format=json", str "ids=" ++ QueryEscape id] := by
    have : str "format=json&ids=" = str "format=json" ++ 38 :: str "ids=" := by decide
    rw [this]
    simp [List.intercalate]
  have hsplit : (str "format=json&ids=" ++ QueryEscape id).splitOn 38
      = [str "format=json", str "ids=" ++ QueryEscape id] := by
    rw [htext]
    apply List.splitOn_intercalate
    · intro l hl
      simp only [List.mem_cons, List.mem_singleton, List.not_mem_nil, or_false] at hl
      rcases hl with hl | hl
      · subst hl; decide
      · subst hl; exact h38
    · simp
  have hstep1 : parseQueryStep quote ([], none) (str "format=json")
      = ([(str "format", [str "json"])], none) := rfl
  have hcut : cut (str "ids=" ++ QueryEscape id) 61 = (str "ids", QueryEscape id, true) := by
    have : str "ids=" = str "ids" ++ [61] := by decide
    rw [this, List.append_assoc]
    exact cut_append (str "ids") (QueryEscape id) 61 (by decide)
  have hcontains : (str "ids=" ++ QueryEscape id).contains 59 = false := by
    simpa using h59
  have hne : str "ids=" ++ QueryEscape id ≠ [] := by
    have : str "ids=" = 105 :: str "ds=" := by decide
    rw [this]
    simp
  have hids : QueryUnescape quote (str "ids") = .ok (str "ids") := rfl
  have hfi : ¬ (str "format" = str "ids") := by decide
  have hstep2 : parseQueryStep quote ([(str "format", [str "json"])], none)
      (str "ids=" ++ QueryEscape id)
      = ([(str "format", [str "json"]), (str "ids", [id])], none) := by
    simp only [parseQueryStep, hcontains, Bool.false_eq_true, if_false, hne, hcut, hids,
      QueryUnescape_QueryEscape, Values.get, Values.put, hfi, List.nil_append]
  simp only [URL.Query, ParseQuery, hsplit, List.foldl_cons, List.foldl_nil, hstep1, hstep2,
    Values.get, hfi, if_false, if_true]
theorem clean_iff (s : GoString) : clean s = true ↔ (63 : Byte) ∉ s ∧ (35 : Byte) ∉ s := by
  simp only [clean, List.all_eq_true, Bool.and_eq_true, bne_iff_ne, ne_eq]
  constructor
  · intro h
    exact ⟨fun h2 => (h 63 h2).1 rfl, fun h2 => (h 35 h2).2 rfl⟩
  · intro h x hx
    exact ⟨fun h2 => h.1 (h2 ▸ hx), fun h2 => h.2 (h2 ▸ hx)⟩

theorem clean_append (a b : GoString) : clean (a ++ b) = (clean a && clean b) := by
  simp [clean, List.all_append]

theorem clean_of_subset (a b : GoString) (h : ∀ c ∈ a, c ∈ b) (hb : clean b = true) :
    clean a = true := by
  rw [clean_iff] at hb ⊢
  exact ⟨fun h2 => hb.1 (h _ h2), fun h2 => hb.2 (h _ h2)⟩

theorem clean_flatMap (f : Byte → GoString) (hf : ∀ c, clean (f c) = true) (s : GoString) :
    clean (s.flatMap f) = true := by
  induction s with
  | nil => rfl
  | cons c rest ih => rw [List.flatMap_cons, clean_append, hf, ih]; rfl

set_option maxRecDepth 100000 in
theorem escapeByte_clean : ∀ c : Byte,
    clean (escapeByte .encodePath c) = true ∧ clean (escapeByte .encodeHost c) = true
      ∧ clean (escapeByte .encodeUserPassword c) = true
      ∧ clean (escapeByte .encodeQueryComponent c) = true := by
  decide!

theorem escape_clean (s : GoString) :
    clean (escape s .encodePath) = true ∧ clean (escape s .encodeHost) = true
      ∧ clean (escape s .encodeUserPassword) = true
      ∧ clean (escape s .encodeQueryComponent) = true :=
  ⟨clean_flatMap _ (fun c => (escapeByte_clean c).1) s,
   clean_flatMap _ (fun c => (escapeByte_clean c).2.1) s,
   clean_flatMap _ (fun c => (escapeByte_clean c).2.2.1) s,
   clean_flatMap _ (fun c => (escapeByte_clean c).2.2.2) s⟩

set_option maxRecDepth 100000 in
theorem validEncoded_byte : ∀ c : Byte, validEncoded [c] .encodePath = true → clean [c] = true := by
  decide!

theorem validEncoded_clean (s : GoString) (h : validEncoded s .encodePath = true) :
    clean s = true := by
  induction s with
  | nil => rfl
  | cons c rest ih =>
    simp only [validEncoded, List.all_cons, Bool.and_eq_true] at h
    have h1 : validEncoded [c] .encodePath = true := by
      simp only [validEncoded, List.all_cons, List.all_nil, Bool.and_true]
      exact h.1
    have h2 : clean rest = true := ih (by simpa [validEncoded] using h.2)
    have := validEncoded_byte c h1
    simp only [clean, List.all_cons, List.all_nil, Bool.and_true] at this ⊢
    rw [this]
    exact h2

theorem EscapedPath_clean (quote : GoString → GoString) (u : URL) :
    clean (URL.EscapedPath quote u) = true := by
  unfold URL.EscapedPath
  split
  · rename_i h
    exact validEncoded_clean _ h.2.1
  · split
    · rfl
    · exact (escape_clean _).1

theorem Userinfo_String_clean (ui : Userinfo) : clean ui.String = true := by
  unfold Userinfo.String
  rw [clean_append, (escape_clean _).2.2.1]
  split
  · have : clean (58 :: escape ui.password .encodeUserPassword)
        = clean (escape ui.password .encodeUserPassword) := by
      simp [clean]
    rw [this, (escape_clean _).2.2.1]; rfl
  · rfl

theorem clean_append_of (a b : GoString) (ha : clean a = true) (hb : clean b = true) :
    clean (a ++ b) = true := by
  rw [clean_append, ha, hb]; rfl

theorem clean_ite (c : Prop) [Decidable c] (a b : GoString) (ha : clean a = true)
    (hb : clean b = true) : clean (if c then a else b) = true := by
  split <;> assumption

theorem stringHead_clean (quote : GoString → GoString) (u : URL)
    (hs : clean u.Scheme = true) (ho : clean u.Opaque = true) :
    clean (URL.stringHead quote u) = true := by
  have hp := EscapedPath_clean quote u
  have hh := (escape_clean u.Host).2.1
  have hc : clean [58] = true := rfl
  have h47 : clean [47] = true := rfl
  have hnil : clean [] = true := rfl
  have hsl : clean (str "//") = true := by decide
  have hdot : clean (str "./") = true := by decide
  have hu : clean (match u.User with
      | some ui => ui.String ++ [64]
      | none => []) = true := by
    cases u.User with
    | none => rfl
    | some ui =>
      show clean (ui.String ++ [64]) = true
      rw [clean_append, Userinfo_String_clean]; rfl
  unfold URL.stringHead
  simp only []
  repeat' (first
    | exact hs | exact ho | exact hp | exact hh | exact hc | exact h47 | exact hnil
    | exact hsl | exact hdot | exact hu
    | apply clean_append_of | apply clean_ite)

theorem cut_cons_ne (c sep : Byte) (s : GoString) (h : c ≠ sep) :
    cut (c :: s) sep = (c :: (cut s sep).1, (cut s sep).2.1, (cut s sep).2.2) := by
  have hc : (c != sep) = true := by simpa using h
  simp only [cut, List.span_eq_take_drop, List.takeWhile_cons, List.dropWhile_cons, hc, if_true]
  cases List.dropWhile (fun c => c != sep) s <;> rfl

theorem cut_skip (p r : GoString) (sep : Byte) (h : sep ∉ p) :
    (cut (p ++ r) sep).2.1 = (cut r sep).2.1 := by
  induction p with
  | nil => rfl
  | cons c rest ih =>
    simp only [List.mem_cons, not_or] at h
    rw [List.cons_append, cut_cons_ne c sep _ (fun h2 => h.1 h2.symm)]
    exact ih h.2

theorem getSchemeLoop_split (raw : GoString) (l : GoString) :
    ∀ (i : Nat) (pre sch rest : GoString), raw = pre ++ l → pre.length = i →
      (63 : Byte) ∉ pre → getSchemeLoop raw i l = .ok (sch, rest) →
      (sch = [] ∧ rest = raw) ∨ (raw = sch ++ 58 :: rest ∧ (63 : Byte) ∉ sch) := by
  induction l with
  | nil =>
    intro i pre sch rest _ _ _ h
    simp only [getSchemeLoop, Except.ok.injEq, Prod.mk.injEq] at h
    exact Or.inl ⟨h.1.symm, h.2.symm⟩
  | cons c tl ih =>
    intro i pre sch rest hraw hlen hpre h
    have hnext : ∀ (hc : c ≠ 63), getSchemeLoop raw (i + 1) tl = .ok (sch, rest) →
        (sch = [] ∧ rest = raw) ∨ (raw = sch ++ 58 :: rest ∧ (63 : Byte) ∉ sch) := by
      intro hc h2
      refine ih (i + 1) (pre ++ [c]) sch rest (by rw [hraw]; simp) (by simp [hlen]) ?_ h2
      intro h3
      rcases List.mem_append.1 h3 with h4 | h4
      · exact hpre h4
      · have h5 : (63 : Byte) = c := by simpa using h4
        exact hc h5.symm
    unfold getSchemeLoop at h
    split at h
    · rename_i hcond
      refine hnext ?_ h
      intro h2; subst h2; revert hcond; decide
    · split at h
      · rename_i hcond
        split at h
        · simp only [Except.ok.injEq, Prod.mk.injEq] at h
          exact Or.inl ⟨h.1.symm, h.2.symm⟩
        · refine hnext ?_ h
          intro h2; subst h2; revert hcond; decide
      · split at h
        · rename_i hcolon
          split at h
          · simp at h
          · simp only [Except.ok.injEq, Prod.mk.injEq] at h
            right
            have htake : raw.take i = pre := by
              rw [hraw, ← hlen]; simp
            rw [← h.1, htake, ← h.2, ← hcolon]
            exact ⟨hraw, hpre⟩
        · simp only [Except.ok.injEq, Prod.mk.injEq] at h
          exact Or.inl ⟨h.1.symm, h.2.symm⟩

theorem getScheme_split (raw sch rest : GoString) (h : getScheme raw = .ok (sch, rest)) :
    (sch = [] ∧ rest = raw) ∨ (raw = sch ++ 58 :: rest ∧ (63 : Byte) ∉ sch) :=
  getSchemeLoop_split raw raw 0 [] sch rest rfl rfl (by simp) h

theorem forceQuery_cut (rest0 : GoString)
    (h : rest0.getLast? = some 63 ∧ rest0.count 63 = 1) : (cut rest0 63).2.1 = [] := by
  obtain ⟨h1, h2⟩ := h
  have hsplit : rest0 = rest0.dropLast ++ [63] := by
    exact (List.dropLast_append_getLast? 63 (Option.mem_def.2 h1)).symm
  have hcount : (63 : Byte) ∉ rest0.dropLast := by
    rw [hsplit, List.count_append] at h2
    have h3 : List.count (63 : Byte) [63] = 1 := by decide
    rw [h3] at h2
    exact List.count_eq_zero.1 (by omega)
  rw [hsplit, cut_append _ _ _ hcount]

theorem setPath_fields (quote : GoString → GoString) (u v : URL) (p : GoString)
    (h : URL.setPath quote u p = .ok v) :
    v.RawQuery = u.RawQuery ∧ v.Scheme = u.Scheme ∧ v.Opaque = u.Opaque := by
  unfold URL.setPath at h
  split at h
  · simp at h
  · split at h <;>
    · simp only [Except.ok.injEq] at h
      subst h
      exact ⟨rfl, rfl, rfl⟩

set_option maxRecDepth 100000 in
theorem lower_byte : ∀ c : Byte, isUpper c = true →
    (Fin.ofNat (c.val + 32) : Byte) ≠ 63 ∧ (Fin.ofNat (c.val + 32) : Byte) ≠ 35 := by
  decide!

theorem toLower_clean (s : GoString) (h : clean s = true) : clean (toLower s) = true := by
  induction s with
  | nil => rfl
  | cons c rest ih =>
    simp only [clean, List.all_cons, Bool.and_eq_true, bne_iff_ne, ne_eq] at h
    have h2 := ih (by simpa [clean] using h.2)
    simp only [toLower, List.map_cons, clean, List.all_cons, Bool.and_eq_true, bne_iff_ne,
      ne_eq] at h2 ⊢
    refine ⟨?_, h2⟩
    split
    · rename_i hu
      exact lower_byte c hu
    · exact h.1

theorem parse_rawQuery (quote : GoString → GoString) (raw : GoString) (viaRequest : Bool)
    (u : URL) (h : parse quote raw viaRequest = .ok u) : u.RawQuery = (cut raw 63).2.1 := by
  unfold parse at h
  split at h
  · simp at h
  split at h
  · simp at h
  split at h
  · rename_i hstar
    simp only [Except.ok.injEq] at h
    subst h
    rw [hstar]
    decide
  split at h
  · simp at h
  rename_i scheme rest0 hs
  have hcut : (cut raw 63).2.1 = (cut rest0 63).2.1 := by
    rcases getScheme_split raw scheme rest0 hs with ⟨_, h2⟩ | ⟨h2, h3⟩
    · rw [h2]
    · have h4 : (63 : Byte) ∉ scheme ++ [58] := by
        intro h5
        rcases List.mem_append.1 h5 with h6 | h6
        · exact h3 h6
        · revert h6; decide
      have h5 : raw = (scheme ++ [58]) ++ rest0 := by rw [h2]; simp
      rw [h5, cut_skip _ _ _ h4]
  by_cases hlast : rest0.getLast? = some 63 ∧ rest0.count 63 = 1
  · have hq : ([] : GoString) = (cut raw 63).2.1 := by
      rw [hcut, forceQuery_cut rest0 hlast]
    simp only [hlast, and_self, if_true] at h
    split at h
    · simp only [Except.ok.injEq] at h
      subst h
      exact hq
    split at h
    · simp at h
    split at h
    · simp at h
    split at h
    · split at h
      · simp at h
      · exact (setPath_fields quote _ u _ h).1.trans hq
    split at h
    · exact (setPath_fields quote _ u _ h).1.trans hq
    · exact (setPath_fields quote _ u _ h).1.trans hq
  · simp only [hlast, if_false] at h
    split at h
    · simp only [Except.ok.injEq] at h
      subst h
      exact hcut.symm
    split at h
    · simp at h
    split at h
    · simp at h
    split at h
    · split at h
      · simp at h
      · exact (setPath_fields quote _ u _ h).1.trans hcut.symm
    split at h
    · exact (setPath_fields quote _ u _ h).1.trans hcut.symm
    · exact (setPath_fields quote _ u _ h).1.trans hcut.symm

theorem setFragment_rawQuery (quote : GoString → GoString) (u v : URL) (f : GoString)
    (h : URL.setFragment quote u f = .ok v) : v.RawQuery = u.RawQuery := by
  unfold URL.setFragment at h
  split at h
  · simp at h
  · split at h <;>
    · simp only [Except.ok.injEq] at h
      subst h
      rfl

theorem Parse_rawQuery (quote : GoString → GoString) (s : GoString) (u : URL)
    (h : Parse quote s = .ok u) : u.RawQuery = queryOfText s := by
  unfold Parse at h
  simp only at h
  split at h
  · simp at h
  · rename_i url hp
    have hq := parse_rawQuery quote _ false url hp
    split at h
    · simp only [Except.ok.injEq] at h
      subst h
      exact hq
    · split at h
      · simp at h
      · rename_i url2 hf
        simp only [Except.ok.injEq] at h
        subst h
        exact (setFragment_rawQuery quote _ _ _ hf).trans hq

theorem parse_clean (quote : GoString → GoString) (raw : GoString) (viaRequest : Bool) (u : URL)
    (hc : clean raw = true) (h : parse quote raw viaRequest = .ok u) :
    clean u.Scheme = true ∧ clean u.Opaque = true := by
  have hq : (63 : Byte) ∉ raw := ((clean_iff raw).1 hc).1
  unfold parse at h
  split at h
  · simp at h
  split at h
  · simp at h
  split at h
  · simp only [Except.ok.injEq] at h
    subst h
    exact ⟨rfl, rfl⟩
  split at h
  · simp at h
  rename_i scheme rest0 hs
  have hsub : ∀ c ∈ rest0, c ∈ raw := getScheme_rest raw scheme rest0 hs
  have hrest : (63 : Byte) ∉ rest0 := fun h2 => hq (hsub 63 h2)
  have hrc : clean rest0 = true := clean_of_subset rest0 raw hsub hc
  have hsc : clean (toLower scheme) = true := by
    apply toLower_clean
    rcases getScheme_split raw scheme rest0 hs with ⟨h2, _⟩ | ⟨h2, _⟩
    · rw [h2]; rfl
    · apply clean_of_subset scheme raw _ hc
      intro c hcm
      rw [h2]
      exact List.mem_append_left _ hcm
  have hlast : ¬ (rest0.getLast? = some 63 ∧ rest0.count 63 = 1) := by
    rintro ⟨h2, _⟩
    exact hrest (List.mem_of_getLast?_eq_some h2)
  simp only [hlast, if_false, cut_of_not_mem rest0 63 hrest] at h
  split at h
  · simp only [Except.ok.injEq] at h
    subst h
    exact ⟨hsc, hrc⟩
  split at h
  · simp at h
  split at h
  · simp at h
  split at h
  · split at h
    · simp at h
    · have := setPath_fields quote _ u _ h
      exact ⟨this.2.1 ▸ hsc, this.2.2 ▸ rfl⟩
  split at h
  · have := setPath_fields quote _ u _ h
    exact ⟨this.2.1 ▸ hsc, this.2.2 ▸ rfl⟩
  · have := setPath_fields quote _ u _ h
    exact ⟨this.2.1 ▸ hsc, this.2.2 ▸ rfl⟩

theorem Parse_clean (quote : GoString → GoString) (raw : GoString) (u : URL)
    (hc : clean raw = true) (h : Parse quote raw = .ok u) :
    clean u.Scheme = true ∧ clean u.Opaque = true := by
  have hf : (35 : Byte) ∉ raw := ((clean_iff raw).1 hc).2
  unfold Parse at h
  rw [cut_of_not_mem raw 35 hf] at h
  simp only at h
  split at h
  · simp at h
  · rename_i url hp
    simp only [if_true, Except.ok.injEq] at h
    subst h
    exact parse_clean quote raw false _ hc hp

theorem getSchemeLoop_append (raw q : GoString) (l : GoString) :
    ∀ (i : Nat) (pre sch rest : GoString), raw = pre ++ l → pre.length = i →
      getSchemeLoop raw i l = .ok (sch, rest) →
      getSchemeLoop (raw ++ 63 :: q) i (l ++ 63 :: q) = .ok (sch, rest ++ 63 :: q) := by
  induction l with
  | nil =>
    intro i pre sch rest _ _ h
    simp only [getSchemeLoop, Except.ok.injEq, Prod.mk.injEq] at h
    have h1 : (isLower 63 || isUpper 63) = false := by decide
    have h2 : (isDigit 63 || (63 : Byte) == 43 || (63 : Byte) == 45 || (63 : Byte) == 46)
        = false := by decide
    have h3 : ¬ ((63 : Byte) = 58) := by decide
    simp only [List.nil_append, getSchemeLoop, h1, h2, h3, Bool.false_eq_true, if_false,
      ← h.1, ← h.2]
  | cons c tl ih =>
    intro i pre sch rest hraw hlen h
    have hnext : getSchemeLoop raw (i + 1) tl = .ok (sch, rest) →
        getSchemeLoop (raw ++ 63 :: q) (i + 1) (tl ++ 63 :: q) = .ok (sch, rest ++ 63 :: q) :=
      ih (i + 1) (pre ++ [c]) sch rest (by rw [hraw]; simp) (by simp [hlen])
    rw [List.cons_append]
    unfold getSchemeLoop at h
    conv_lhs => unfold getSchemeLoop
    split at h
    · rename_i hc
      rw [if_pos hc]
      exact hnext h
    · rename_i hc
      rw [if_neg hc]
      split at h
      · rename_i hd
        rw [if_pos hd]
        split at h
        · rename_i hi
          simp only [Except.ok.injEq, Prod.mk.injEq] at h
          rw [if_pos hi, ← h.1, ← h.2]
        · rename_i hi
          rw [if_neg hi]
          exact hnext h
      · rename_i hd
        rw [if_neg hd]
        split at h
        · rename_i hcolon
          rw [if_pos hcolon]
          split at h
          · simp at h
          · rename_i hi
            simp only [Except.ok.injEq, Prod.mk.injEq] at h
            have htake : (raw ++ 63 :: q).take i = raw.take i := by
              rw [hraw, ← hlen]; simp
            rw [if_neg hi, htake, h.1, ← h.2]
        · rename_i hcolon
          simp only [Except.ok.injEq, Prod.mk.injEq] at h
          rw [if_neg hcolon, ← h.1, ← h.2]

theorem getScheme_append (raw q sch rest : GoString) (h : getScheme raw = .ok (sch, rest)) :
    getScheme (raw ++ 63 :: q) = .ok (sch, rest ++ 63 :: q) :=
  getSchemeLoop_append raw q raw 0 [] sch rest rfl rfl h

theorem setPath_with_query (quote : GoString → GoString) (w v : URL) (p q : GoString)
    (h : URL.setPath quote w p = .ok v) :
    URL.setPath quote { w with RawQuery := q } p = .ok { v with RawQuery := q } := by
  unfold URL.setPath at h ⊢
  split at h
  · simp at h
  · rename_i path hp
    simp only [hp]
    split at h
    · rename_i he
      simp only [Except.ok.injEq] at h
      subst h
      simp only [he, if_true]
    · rename_i he
      simp only [Except.ok.injEq] at h
      subst h
      simp only [he, if_false]

theorem parse_of_getScheme (quote : GoString → GoString) (raw scheme rest0 : GoString)
    (viaRequest : Bool) (hctl : stringContainsCTLByte raw = false)
    (hne : ¬ (raw = [] ∧ viaRequest = true)) (hstar : raw ≠ [42])
    (hs : getScheme raw = .ok (scheme, rest0))
    (hlast : ¬ (rest0.getLast? = some 63 ∧ rest0.count 63 = 1)) :
    parse quote raw viaRequest
      = parseTail quote { Scheme := toLower scheme, RawQuery := (cut rest0 63).2.1 }
          (cut rest0 63).1 viaRequest := by
  unfold parse parseTail
  simp only [hctl, Bool.false_eq_true, if_false, hne, hstar, hs, hlast]

theorem parseTail_with_query (quote : GoString → GoString) (url1 w : URL) (rest q : GoString)
    (viaRequest : Bool) (h : parseTail quote url1 rest viaRequest = .ok w) :
    parseTail quote { url1 with RawQuery := q } rest viaRequest
      = .ok { w with RawQuery := q } := by
  unfold parseTail at h ⊢
  simp only [] at h ⊢
  split at h
  · rename_i hc
    simp only [Except.ok.injEq] at h
    subst h
    rw [if_pos hc]
  rename_i hc1
  rw [if_neg hc1]
  split at h
  · simp at h
  rename_i hc2
  rw [if_neg hc2]
  split at h
  · simp at h
  rename_i hc3
  rw [if_neg hc3]
  split at h
  · rename_i hc4
    rw [if_pos hc4]
    split at h
    · simp at h
    · exact setPath_with_query quote _ w _ q h
  rename_i hc4
  rw [if_neg hc4]
  split at h
  · rename_i hc5
    rw [if_pos hc5]
    exact setPath_with_query quote _ w _ q h
  · rename_i hc5
    rw [if_neg hc5]
    exact setPath_with_query quote _ w _ q h

theorem parse_ok_facts (quote : GoString → GoString) (raw : GoString) (viaRequest : Bool)
    (w : URL) (hstar : raw ≠ [42]) (h : parse quote raw viaRequest = .ok w) :
    stringContainsCTLByte raw = false ∧ ¬ (raw = [] ∧ viaRequest = true)
      ∧ ∃ scheme rest0, getScheme raw = .ok (scheme, rest0) := by
  by_cases h1 : stringContainsCTLByte raw = true
  · unfold parse at h
    simp only [h1, if_true] at h
    cases h
  by_cases h2 : raw = [] ∧ viaRequest = true
  · unfold parse at h
    simp only [h1, Bool.false_eq_true, if_false, h2, and_self, if_true] at h
    cases h
  cases hs : getScheme raw with
  | error e =>
    unfold parse at h
    simp only [h1, Bool.false_eq_true, if_false, h2, hstar, hs] at h
    cases h
  | ok p =>
    obtain ⟨scheme, rest0⟩ := p
    exact ⟨by simpa using h1, h2, scheme, rest0, rfl⟩

theorem ctl_append (a b : GoString) :
    stringContainsCTLByte (a ++ b) = (stringContainsCTLByte a || stringContainsCTLByte b) := by
  simp [stringContainsCTLByte, List.any_append]

theorem parse_append_query (quote : GoString → GoString) (raw q : GoString) (w : URL)
    (h63 : (63 : Byte) ∉ raw) (hq63 : (63 : Byte) ∉ q) (hqne : q ≠ [])
    (hctl : stringContainsCTLByte q = false) (hstar : raw ≠ [42])
    (h : parse quote raw false = .ok w) :
    parse quote (raw ++ 63 :: q) false = .ok { w with RawQuery := q } := by
  obtain ⟨hctlraw, hne, scheme, rest0, hs⟩ := parse_ok_facts quote raw false w hstar h
  have hrest : (63 : Byte) ∉ rest0 := fun h2 => h63 (getScheme_rest raw scheme rest0 hs 63 h2)
  have hlast : ¬ (rest0.getLast? = some 63 ∧ rest0.count 63 = 1) := by
    rintro ⟨h2, _⟩
    exact hrest (List.mem_of_getLast?_eq_some h2)
  rw [parse_of_getScheme quote raw scheme rest0 false hctlraw hne hstar hs hlast,
    cut_of_not_mem rest0 63 hrest] at h
  have g1 : stringContainsCTLByte (raw ++ 63 :: q) = false := by
    have : raw ++ 63 :: q = raw ++ ([63] ++ q) := by simp
    rw [this, ctl_append, ctl_append, hctlraw, hctl]
    decide
  have g2 : ¬ (raw ++ 63 :: q = [] ∧ false = true) := by simp
  have g3 : raw ++ 63 :: q ≠ [42] := by
    cases raw with
    | nil => simp
    | cons c tl => simp
  have g4 := getScheme_append raw q scheme rest0 hs
  have hlast2 : ¬ ((rest0 ++ 63 :: q).getLast? = some 63 ∧ (rest0 ++ 63 :: q).count 63 = 1) := by
    rintro ⟨h2, _⟩
    have h3 : (rest0 ++ 63 :: q).getLast? = q.getLast? := by
      rw [List.getLast?_append, List.getLast?_cons]
      cases hq : q.getLast? with
      | none => exact absurd (List.getLast?_eq_none_iff.1 hq) hqne
      | some x => simp
    rw [h3] at h2
    exact hq63 (List.mem_of_getLast?_eq_some h2)
  rw [parse_of_getScheme quote _ scheme _ false g1 g2 g3 g4 hlast2, cut_append rest0 q 63 hrest]
  exact parseTail_with_query quote _ w rest0 q false h

theorem parse_star_query (quote : GoString → GoString) (q : GoString)
    (hq63 : (63 : Byte) ∉ q) (hqne : q ≠ []) (hctl : stringContainsCTLByte q = false) :
    ∃ w, parse quote (42 :: 63 :: q) false = .ok w := by
  have g1 : stringContainsCTLByte (42 :: 63 :: q) = false := by
    have : (42 : Byte) :: 63 :: q = [42, 63] ++ q := rfl
    rw [this, ctl_append, hctl]
    decide
  have g4 : getScheme (42 :: 63 :: q) = .ok ([], 42 :: 63 :: q) := by
    have h1 : (isLower 42 || isUpper 42) = false := by decide
    have h2 : (isDigit 42 || (42 : Byte) == 43 || (42 : Byte) == 45 || (42 : Byte) == 46)
        = false := by decide
    have h3 : ¬ ((42 : Byte) = 58) := by decide
    simp only [getScheme, getSchemeLoop, h1, h2, h3, Bool.false_eq_true, if_false]
  have hlast2 : ¬ (((42 : Byte) :: 63 :: q).getLast? = some 63
      ∧ ((42 : Byte) :: 63 :: q).count 63 = 1) := by
    rintro ⟨h2, _⟩
    have h3 : ((42 : Byte) :: 63 :: q).getLast? = q.getLast? := by
      have : (42 : Byte) :: 63 :: q = [42] ++ 63 :: q := rfl
      rw [this, List.getLast?_append, List.getLast?_cons]
      cases hq : q.getLast? with
      | none => exact absurd (List.getLast?_eq_none_iff.1 hq) hqne
      | some x => simp
    rw [h3] at h2
    exact hq63 (List.mem_of_getLast?_eq_some h2)
  have hcut : cut (42 :: 63 :: q) 63 = ([42], q, true) := cut_append [42] q 63 (by decide)
  rw [parse_of_getScheme quote _ [] _ false g1 (by simp) (by simp) g4 hlast2, hcut]
  exact ⟨_, rfl⟩

theorem Parse_append_query (quote : GoString → GoString) (s q : GoString) (w : URL)
    (hs : clean s = true) (hq : clean q = true) (hqne : q ≠ [])
    (hctl : stringContainsCTLByte q = false) (h : Parse quote s = .ok w) :
    ∃ u2, Parse quote (s ++ 63 :: q) = .ok u2 := by
  obtain ⟨hs63, hs35⟩ := (clean_iff s).1 hs
  obtain ⟨hq63, hq35⟩ := (clean_iff q).1 hq
  have h35 : (35 : Byte) ∉ s ++ 63 :: q := by
    intro h2
    rcases List.mem_append.1 h2 with h3 | h3
    · exact hs35 h3
    · rcases List.mem_cons.1 h3 with h4 | h4
      · revert h4; decide
      · exact hq35 h4
  have hp : parse quote s false = .ok w := by
    unfold Parse at h
    rw [cut_of_not_mem s 35 hs35] at h
    simp only at h
    split at h
    · simp at h
    · rename_i url hpu
      simp only [if_true, Except.ok.injEq] at h
      rw [hpu, h]
  have hp2 : ∃ u2, parse quote (s ++ 63 :: q) false = .ok u2 := by
    by_cases hstar : s = [42]
    · subst hstar
      exact parse_star_query quote q hq63 hqne hctl
    · exact ⟨_, parse_append_query quote s q w hs63 hq63 hqne hctl hstar hp⟩
  obtain ⟨u2, hu2⟩ := hp2
  refine ⟨u2, ?_⟩
  unfold Parse
  rw [cut_of_not_mem _ 35 h35]
  simp only [hu2, if_true]

set_option maxRecDepth 100000 in
theorem escapeByte_noCTL : ∀ c : Byte,
    stringContainsCTLByte (escapeByte .encodeQueryComponent c) = false := by
  decide!

theorem QueryEscape_noCTL (s : GoString) : stringContainsCTLByte (QueryEscape s) = false := by
  induction s with
  | nil => rfl
  | cons c rest ih =>
    simp only [QueryEscape, escape, List.flatMap_cons] at ih ⊢
    rw [ctl_append, escapeByte_noCTL, ih]
    rfl

theorem ParseQuery_station_ids (quote : GoString → GoString) (id : GoString) :
    Values.get (ParseQuery quote (str "format=json&ids=" ++ QueryEscape id)).1 (str "ids")
      = [id] :=
  Query_station_ids quote id

theorem queryOfText_append (head q : GoString) (hh : clean head = true)
    (hq : (35 : Byte) ∉ q) : queryOfText (head ++ 63 :: q) = q := by
  have h1 := (clean_iff head).1 hh
  have h35 : (35 : Byte) ∉ head ++ 63 :: q := by
    intro h
    rcases List.mem_append.1 h with h2 | h2
    · exact h1.2 h2
    · rcases List.mem_cons.1 h2 with h3 | h3
      · revert h3; decide
      · exact hq h3
  simp only [queryOfText, cut_of_not_mem _ 35 h35, cut_append head q 63 h1.1]

/-- C6, as the code has it: for an API root without `?` and `#`, an endpoint `metar` or `taf`
and any station ID, when `url.Parse` accepts `{apiRoot}/{endpoint}` as `u`, `getURL`
returns, with a nil error, the text that `u.String()` gives for it followed by
`?format=json&ids=` and the query-escaped station ID (keys in alphabetical order); this is
`{apiRoot}/{endpoint}?format=json&ids=...` whenever `u.String()` gives `{apiRoot}/{endpoint}`
back. Decoding the `ids` query parameter of the result gives the station ID back unchanged:
the query of the returned text is `format=json&ids=` and the escaped station ID, parsing
that query and reading `ids` gives the station ID, and so does `Query()` of every URL that
`url.Parse` makes of the returned text; `url.Parse` accepts the returned text whenever it
accepts what `u.String()` gives, as it does when that is `{apiRoot}/{endpoint}` itself;
unescaping the escaped station ID gives the station ID. -/
theorem getURL_station_query (lib : StdLib) (n : NWSProvider) (endpoint id : GoString) (u : URL)
    (hq : (63 : Byte) ∉ n.apiRootURL) (hf : (35 : Byte) ∉ n.apiRootURL)
    (hend : endpoint = str "metar" ∨ endpoint = str "taf")
    (hparse : Parse lib.quote (n.apiRootURL ++ str "/" ++ endpoint) = .ok u) :
    n.getURL lib endpoint id
        = (URL.String lib.quote u ++ str "?format=json&ids=" ++ QueryEscape id, none)
    ∧ (URL.String lib.quote u = n.apiRootURL ++ str "/" ++ endpoint →
        n.getURL lib endpoint id
          = (n.apiRootURL ++ str "/" ++ endpoint ++ str "?format=json&ids=" ++ QueryEscape id,
              none))
    ∧ queryOfText (n.getURL lib endpoint id).1 = str "format=json&ids=" ++ QueryEscape id
    ∧ Values.get (ParseQuery lib.quote (queryOfText (n.getURL lib endpoint id).1)).1
        (str "ids") = [id]
    ∧ (∀ u2, Parse lib.quote (n.getURL lib endpoint id).1 = .ok u2 →
        Values.get (URL.Query lib.quote u2) (str "ids") = [id])
    ∧ QueryUnescape lib.quote (QueryEscape id) = .ok id
    ∧ Values.get (URL.Query lib.quote { RawQuery := str "format=json&ids=" ++ QueryEscape id })
        (str "ids") = [id]
    ∧ (∀ w, Parse lib.quote (URL.String lib.quote u) = .ok w →
        ∃ u2, Parse lib.quote (n.getURL lib endpoint id).1 = .ok u2
          ∧ Values.get (URL.Query lib.quote u2) (str "ids") = [id])
    ∧ (URL.String lib.quote u = n.apiRootURL ++ str "/" ++ endpoint →
        ∃ u2, Parse lib.quote (n.getURL lib endpoint id).1 = .ok u2
          ∧ Values.get (URL.Query lib.quote u2) (str "ids") = [id]) := by
  have hend2 : (63 : Byte) ∉ str "/" ++ endpoint ∧ (35 : Byte) ∉ str "/" ++ endpoint := by
    rcases hend with h | h <;> subst h <;> decide
  have h63 : (63 : Byte) ∉ n.apiRootURL ++ str "/" ++ endpoint := by
    intro h
    rw [List.append_assoc] at h
    rcases List.mem_append.1 h with h | h
    · exact hq h
    · exact hend2.1 h
  have h35 : (35 : Byte) ∉ n.apiRootURL ++ str "/" ++ endpoint := by
    intro h
    rw [List.append_assoc] at h
    rcases List.mem_append.1 h with h | h
    · exact hf h
    · exact hend2.2 h
  have hplain : u.plain := Parse_plain lib.quote _ u h63 h35 hparse
  have hclean := Parse_clean lib.quote _ u ((clean_iff _).2 ⟨h63, h35⟩) hparse
  have hne : str "format=json&ids=" ++ QueryEscape id ≠ [] := by
    have : str "format=json&ids=" = 102 :: str "ormat=json&ids=" := by decide
    rw [this]
    simp
  have hsplit : str "?format=json&ids=" = [63] ++ str "format=json&ids=" := by decide
  have hmain : n.getURL lib endpoint id
      = (URL.String lib.quote u ++ str "?format=json&ids=" ++ QueryEscape id, none) := by
    have hquery : URL.Query lib.quote u = [] := by
      rw [URL.Query, hplain.1, ParseQuery_empty]
    simp only [NWSProvider.getURL, hparse, hquery, Encode_station_query,
      String_with_query lib.quote u _ hplain hne]
    rw [hsplit]
    simp only [List.append_assoc]
  have hstring : URL.String lib.quote u = URL.stringHead lib.quote u := by
    obtain ⟨h1, h2, h3, _⟩ := hplain
    simp [URL.String, h1, h2, h3]
  have hqclean : (35 : Byte) ∉ str "format=json&ids=" ++ QueryEscape id := by
    intro h
    rcases List.mem_append.1 h with h | h
    · revert h; decide
    · exact ((clean_iff _).1 (escape_clean id).2.2.2).2 h
  have htext : queryOfText (n.getURL lib endpoint id).1
      = str "format=json&ids=" ++ QueryEscape id := by
    rw [hmain]
    simp only []
    rw [hsplit, hstring]
    have : URL.stringHead lib.quote u ++ ([63] ++ str "format=json&ids=") ++ QueryEscape id
        = URL.stringHead lib.quote u ++ 63 :: (str "format=json&ids=" ++ QueryEscape id) := by
      simp
    rw [this]
    exact queryOfText_append _ _ (stringHead_clean lib.quote u hclean.1 hclean.2) hqclean
  have hall : ∀ u2, Parse lib.quote (n.getURL lib endpoint id).1 = .ok u2 →
      Values.get (URL.Query lib.quote u2) (str "ids") = [id] := by
    intro u2 hp2
    rw [URL.Query, Parse_rawQuery lib.quote _ u2 hp2, htext]
    exact ParseQuery_station_ids _ _
  have haccept : ∀ w, Parse lib.quote (URL.String lib.quote u) = .ok w →
      ∃ u2, Parse lib.quote (n.getURL lib endpoint id).1 = .ok u2
        ∧ Values.get (URL.Query lib.quote u2) (str "ids") = [id] := by
    intro w hw
    have hqc : clean (str "format=json&ids=" ++ QueryEscape id) = true := by
      have h1 : clean (QueryEscape id) = true := (escape_clean id).2.2.2
      rw [clean_append, h1]
      decide
    have hqctl : stringContainsCTLByte (str "format=json&ids=" ++ QueryEscape id) = false := by
      rw [ctl_append, QueryEscape_noCTL]
      decide
    have hsc : clean (URL.String lib.quote u) = true := by
      rw [hstring]
      exact stringHead_clean lib.quote u hclean.1 hclean.2
    obtain ⟨u2, hu2⟩ := Parse_append_query lib.quote _ _ w hsc hqc hne hqctl hw
    have hres : (n.getURL lib endpoint id).1
        = URL.String lib.quote u ++ 63 :: (str "format=json&ids=" ++ QueryEscape id) := by
      rw [hmain]
      simp only []
      rw [hsplit]
      simp
    rw [← hres] at hu2
    exact ⟨u2, hu2, hall u2 hu2⟩
  refine ⟨hmain, ?_, htext, ?_, hall, QueryUnescape_QueryEscape _ _, Query_station_ids _ _,
    haccept, ?_⟩
  · intro hs
    rw [hmain, hs]
  · rw [htext]
    exact ParseQuery_station_ids _ _
  · intro hs
    exact haccept u (by rw [hs]; exact hparse)

/-- Witness of C6 as the code has it: root `https://x/y`, endpoint `metar`, station `PAFA`
give `https://x/y/metar?format=json&ids=PAFA`; `url.Parse` accepts this text, and `Query()`
of the parsed URL holds `PAFA` under `ids`. -/
theorem getURL_station_query_witness :
    xyProvider.getURL (exampleLib uniqueSnapshot [] .null) (str "metar") (str "PAFA")
      = (str "https://x/y/metar?format=json&ids=PAFA", none)
    ∧ ∃ u2, Parse (exampleLib uniqueSnapshot [] .null).quote
          (xyProvider.getURL (exampleLib uniqueSnapshot [] .null) (str "metar")
            (str "PAFA")).1 = .ok u2
        ∧ Values.get (URL.Query (exampleLib uniqueSnapshot [] .null).quote u2) (str "ids")
          = [str "PAFA"] :=
  ⟨(getURL_station_query (exampleLib uniqueSnapshot [] .null) xyProvider (str "metar")
    (str "PAFA") { Scheme := str "https", Host := str "x", Path := str "/y/metar" }
    (by decide) (by decide) (Or.inl rfl) rfl).2.1 (by decide),
   (getURL_station_query (exampleLib uniqueSnapshot [] .null) xyProvider (str "metar")
    (str "PAFA") { Scheme := str "https", Host := str "x", Path := str "/y/metar" }
    (by decide) (by decide) (Or.inl rfl) rfl).2.2.2.2.2.2.2.2 (by decide)⟩

/-- C6 as stated fails: for the root `HTTPS://x/y`, `getURL` returns
`https://x/y/metar?format=json&ids=PAFA`, with the scheme in lower case, which is not
`{apiRoot}/metar?format=json&ids=PAFA`. -/
theorem getURL_lowers_scheme :
    capitalSchemeProvider.getURL (exampleLib uniqueSnapshot [] .null) (str "metar") (str "PAFA")
      = (str "https://x/y/metar?format=json&ids=PAFA", none)
    ∧ capitalSchemeProvider.getURL (exampleLib uniqueSnapshot [] .null) (str "metar")
        (str "PAFA")
      ≠ (capitalSchemeProvider.apiRootURL ++ str "/" ++ str "metar" ++ str "?format=json&ids="
          ++ QueryEscape (str "PAFA"), none) := by
  constructor <;> decide

end Vreme
